import Mathlib

/-!
Verification development for the VolumeRendererCL repository.

The definitions below are shallow embeddings of the OpenCL kernel
`src/kernel/volumeraycast.cl` (front-to-back ray casting, object-order
empty-space skipping, brick generation, Woodcock path tracing) and of the
host orchestrator `VolumeRenderCL` (transfer-function upload, volume
loading, camera/render setters).  Machine floats are modelled as exact
rationals `ℚ` (the floating-point formulas of the compositing rule are
additionally modelled over `ℝ` where a real exponent occurs); machine
`unsigned int` arithmetic is `ℕ` taken `% 2^32`.  Device textures are
modelled by the byte tables the host uploads together with the OpenCL
sampler semantics (normalized coordinates, `CLAMP_TO_EDGE` / border
addressing, nearest and linear filtering).
-/

namespace VolRC

/-! ## Small vector types (OpenCL float3 / int3 / float4 over ℚ) -/

/-- `float3` over exact rationals. -/
structure V3 where
  x : ℚ
  y : ℚ
  z : ℚ
deriving DecidableEq

/-- `int3`. -/
structure I3 where
  x : ℤ
  y : ℤ
  z : ℤ
deriving DecidableEq

/-- `float4` over exact rationals. -/
structure Quad where
  x : ℚ
  y : ℚ
  z : ℚ
  w : ℚ
deriving DecidableEq

def V3.add (a b : V3) : V3 := ⟨a.x + b.x, a.y + b.y, a.z + b.z⟩

def V3.sub (a b : V3) : V3 := ⟨a.x - b.x, a.y - b.y, a.z - b.z⟩

def V3.smul (c : ℚ) (a : V3) : V3 := ⟨c * a.x, c * a.y, c * a.z⟩

def V3.mul (a b : V3) : V3 := ⟨a.x * b.x, a.y * b.y, a.z * b.z⟩

/-- OpenCL `clamp` on rationals. -/
def clampQ (v lo hi : ℚ) : ℚ := min (max v lo) hi

/-- OpenCL `clamp` on integers. -/
def clampI (v lo hi : ℤ) : ℤ := min (max v lo) hi

/-! ## Machine integers -/

/-- `2^32`, the modulus of `unsigned int` arithmetic. -/
def u32Mod : ℕ := 4294967296

/-- `UINT_MAX`. -/
def uintMax : ℕ := 4294967295

/-- Largest finite `float` (`FLT_MAX = (2 - 2^-23) * 2^127`), the value
`select` substitutes for `1/rayDir` on near-zero direction components in
the DDA setup of `volumeRender`. -/
def fltMax : ℚ := 340282346638528859811704183484516925440

/-- `FLT_EPSILON = 2^-23`, used by the kernel helper `approxEq`. -/
def fltEps : ℚ := 1 / 8388608

/-! ## RNG (`kernel/random.cl`)

`ParallelRNG` is an integer hash on `unsigned int`; the kernel seeds the
per-pixel ray jitter with `ParallelRNG2(x, y) / UINT_MAX`. -/

/-- `unsigned int` XOR, via `Nat.xor` (both arguments are `< 2^32`, so no
explicit reduction is needed for the XOR itself). -/
def uxor (a b : ℕ) : ℕ := Nat.xor a b

/-- `ParallelRNG` from `kernel/random.cl`. -/
def ParallelRNG (x : ℕ) : ℕ :=
  let v₀ := x % u32Mod
  let v₁ := uxor (uxor v₀ 61) (v₀ / 65536)
  let v₂ := v₁ * 9 % u32Mod
  let v₃ := uxor v₂ (v₂ * 16 % u32Mod)
  let v₄ := v₃ * 668265261 % u32Mod
  uxor v₄ (v₄ / 32768)

/-- `ParallelRNG2` from `kernel/random.cl`. -/
def ParallelRNG2 (x y : ℕ) : ℕ := ParallelRNG (uxor y (ParallelRNG x))

/-- `ParallelRNG3` from `kernel/random.cl`. -/
def ParallelRNG3 (x y z : ℕ) : ℕ := ParallelRNG (uxor z (ParallelRNG2 x y))

/-- `mapUintFloat`: map an `unsigned int` onto `[0,1]` by dividing by
`UINT_MAX`. -/
def mapUintFloat (v : ℕ) : ℚ := (v : ℚ) / (uintMax : ℚ)

/-! ## Transfer-function prefix sums (`VolumeRenderCL::setTransferFunction`)

The host walks the raw RGBA byte table, extracts every fourth byte
(`for (i = 3; i < tff.size(); i += 4)`), and runs `std::partial_sum`
over a `std::vector<unsigned int>`. -/

/-- The alpha bytes of a raw RGBA table: every fourth byte starting at
index 3 (exactly the elements `tff.at(i)`, `i = 3, 7, 11, …`). -/
def alphaEntries : List ℕ → List ℕ
  | _ :: _ :: _ :: a :: rest => a :: alphaEntries rest
  | _ => []

/-- `std::partial_sum` over `unsigned int` (wrap-around at `2^32`),
starting from accumulator `acc`. -/
def runSumU32 : List ℕ → ℕ → List ℕ
  | [], _ => []
  | a :: rest, acc =>
    let s := (acc + a) % u32Mod
    s :: runSumU32 rest s

/-- Mathematical (non-wrapping) running sum, for comparison with
`runSumU32`. -/
def runSumNat : List ℕ → ℕ → List ℕ
  | [], _ => []
  | a :: rest, acc =>
    let s := acc + a
    s :: runSumNat rest s

/-- The alpha prefix-sum vector `setTransferFunction` derives from a raw
RGBA byte table and uploads as the `tffPrefix` texture. -/
def tffPrefixOf (tff : List ℕ) : List ℕ := runSumU32 (alphaEntries tff) 0

/-! ## 1-D texture reads (transfer function and its prefix sums)

`tffData` is a `CL_RGBA`/`CL_UNORM_INT8` image read through `linearSmp`
(normalized coords, `CLAMP_TO_EDGE`, linear filtering): at normalized
coordinate `u` with table length `L`, OpenCL takes `c = u*L - 1/2`,
`i0 = ⌊c⌋`, `i1 = i0 + 1`, blends with weight `frac c` and clamps the
indices to `[0, L-1]`.  `tffPrefix` is a `CL_UNSIGNED_INT32` image read
via `read_imageui` with the same sampler; integer textures only support
nearest filtering (linear filtering on them is invalid in OpenCL), so the
read is modelled as the nearest-texel lookup `⌊u*L⌋` clamped to the
table. -/

/-- Clamp-to-edge index for a table of length `L`. -/
def edgeIdx (L : ℕ) (i : ℤ) : ℕ := (clampI i 0 (L - 1)).toNat

/-- Linear 1-D UNORM8 sample of a byte channel `T` of length `L` at
normalized coordinate `u` (result in `[0,1]`). -/
def tex1DLinear (T : ℕ → ℕ) (L : ℕ) (u : ℚ) : ℚ :=
  let c : ℚ := u * L - 1/2
  let i0 : ℤ := ⌊c⌋
  let a : ℚ := c - i0
  ((1 - a) * T (edgeIdx L i0) + a * T (edgeIdx L (i0 + 1))) / 255

/-- Nearest 1-D sample of an integer channel `T` of length `L` at
normalized coordinate `u`. -/
def tex1DNearest (T : ℕ → ℕ) (L : ℕ) (u : ℚ) : ℕ :=
  T (edgeIdx L ⌊u * (L : ℚ)⌋)

/-- Full RGBA linear transfer-function lookup (`read_imagef(tffData,
linearSmp, u)`), given the four byte channels of the uploaded table. -/
def tffSample (R G B A : ℕ → ℕ) (L : ℕ) (u : ℚ) : Quad :=
  ⟨tex1DLinear R L u, tex1DLinear G L u, tex1DLinear B L u, tex1DLinear A L u⟩

/-! ## The ESS brick-skip test (`volumeRender`, lines 727–738)

A brick with density range `(dmin, dmax)` is skipped iff the
transfer-function alpha at `dmax` is below `1e-6` and the prefix-sum
lookups at `dmin` and `dmax` agree. -/

/-- The skip decision of the object-order ESS traversal. -/
def essSkipTest (A : ℕ → ℕ) (L : ℕ) (P : ℕ → ℕ) (PL : ℕ)
    (dmin dmax : ℚ) : Bool :=
  tex1DLinear A L dmax < 1/1000000 &&
    tex1DNearest P PL dmin == tex1DNearest P PL dmax

/-- The predicate the specification describes: prefix-sum equality
alone. -/
def specSkipPred (P : ℕ → ℕ) (PL : ℕ) (dmin dmax : ℚ) : Bool :=
  tex1DNearest P PL dmin == tex1DNearest P PL dmax

/-! ## Progressive accumulation (`volumeRender`, lines 640–650) -/

/-- One accumulation step: iteration 0 stores the sample directly,
iteration `n > 0` blends `prev + (sample - prev)/(n+1)`. -/
def accumStep (iteration : ℕ) (prev sample : ℚ) : ℚ :=
  if iteration = 0 then sample else prev + (sample - prev) / (iteration + 1)

/-- Accumulate with an explicit starting iteration and buffer value. -/
def accumFrom (n : ℕ) (buf : ℚ) : List ℚ → ℚ
  | [] => buf
  | s :: rest => accumFrom (n + 1) (accumStep n buf s) rest

/-- Accumulate a sequence of per-frame samples, feeding frame `n` to
`accumStep n`, starting from a cleared buffer at iteration `0`. -/
def accumRun (samples : List ℚ) : ℚ := accumFrom 0 0 samples

/-! ## Path-tracer free-flight sampling (`sample_interaction`,
`volumeraycast.cl` lines 409–440)

The loop repeatedly advances `t` by the Woodcock free-flight step
(`-log(1 - ξ)/max_extinction`; `ξ` is derived once from the call's fixed
`rand`, so the increment `dt` is the same on every iteration and is taken
as an oracle input because `log` is transcendental), rejects samples while
`sample < mapUintFloat(rand)`, and bails out returning "no interaction"
as soon as the position leaves the unit cube or the counter passes 512.
The volume texture is an oracle `vol` mapping a position in `[0,1]³` to a
density; the alpha channel of the transfer-function table `A` (length
`L`) classifies the density, exactly as in the kernel. -/

/-- `in_volume`: strictly inside the cube `(-1,1)³`. -/
def in_volume (p : V3) : Bool :=
  max |p.x| (max |p.y| |p.z|) < 1

/-- `get_extinction` (lines 400–406): scale the density sampled at
`pos*0.5+0.5` by the extinction bound. -/
def get_extinction (maxExt : ℚ) (pos : V3) (vol : V3 → ℚ) : ℚ :=
  maxExt * vol ⟨pos.x * (1/2) + 1/2, pos.y * (1/2) + 1/2, pos.z * (1/2) + 1/2⟩

/-- The mapped alpha of a free-flight candidate: `read_imagef(tff,
linearSmp, sample/max_extinction).w`. -/
def siMapped (vol : V3 → ℚ) (A : ℕ → ℕ) (L : ℕ) (maxExt : ℚ) (pos : V3) : ℚ :=
  tex1DLinear A L (get_extinction maxExt pos vol / maxExt)

/-- One-call state of `sample_interaction`, iterated from `cnt`.  The
outer `Option` is the fuel discipline of the embedding (`none` = the
given fuel ran out before the loop exited; the theorems show any fuel
covering the 512-iteration cap suffices, which is the termination
claim).  Inside it: the accepted position with its mapped alpha (or
`none` = the kernel's `return false`, i.e. "no interaction": the ray
left the volume or the cap was passed), paired with the value of `cnt`
at exit (iterations count from 1, as in the kernel's `++cnt`). -/
def sampleInteractLoop (vol : V3 → ℚ) (A : ℕ → ℕ) (L : ℕ)
    (rayPos rayDir : V3) (maxExt dt : ℚ) (randQ : ℚ) :
    ℕ → ℕ → ℚ → Option (Option (V3 × ℚ) × ℕ)
  | 0, _, _ => none
  | fuel + 1, cnt, t =>
    let t' := t + dt
    let pos := rayPos.add (V3.smul t' rayDir)
    if ¬ in_volume pos then some (none, cnt)
    else
      let s := siMapped vol A L maxExt pos
      if 512 < cnt then some (none, cnt)
      else if s < randQ then
        sampleInteractLoop vol A L rayPos rayDir maxExt dt randQ fuel (cnt + 1) t'
      else some (some (pos, s), cnt)

/-- `sample_interaction` itself: the loop starts at `t = 0` with the
counter at 1; fuel 514 covers the iteration cap (counter values
1 … 513), so by `sampleInteractLoop_stable` the result is the loop's
behaviour for every sufficient fuel. -/
def sample_interaction (vol : V3 → ℚ) (A : ℕ → ℕ) (L : ℕ)
    (rayPos rayDir : V3) (maxExt dt randQ : ℚ) :
    Option (Option (V3 × ℚ) × ℕ) :=
  sampleInteractLoop vol A L rayPos rayDir maxExt dt randQ 514 1 0

/-! ## Front-to-back compositing over ℝ (`volumeRender`, lines 809–812)

The per-sample opacity uses a real exponent (`native_powr(1 - w,
1/samplingRate)`), so this layer of the model is over `ℝ` with `rpow`. -/

/-- `opacity = 1 - (1 - w)^r` with `r = 1/samplingRate`
(`refSamplingInterval`). -/
noncomputable def opacityOf (w r : ℝ) : ℝ := 1 - (1 - w) ^ r

/-- `alpha = alpha + opacity * (1 - alpha)` — the accumulated-alpha
update of the front-to-back rule. -/
def alphaStep (alpha opacity : ℝ) : ℝ := alpha + opacity * (1 - alpha)

/-- The trace of accumulated alphas along a ray: the value of `alpha`
before the first sample and after each sample, for per-sample
transfer-function alphas `ws` and exponent `r`. -/
noncomputable def alphaTrace (r : ℝ) (a₀ : ℝ) (ws : List ℝ) : List ℝ :=
  ws.scanl (fun a w => alphaStep a (opacityOf w r)) a₀

/-! ## Brick generation (`generateBricks` kernel, lines 868–899)

One work-item per brick cell: scan the covered sub-block and fold
`min`/`max` over the normalized densities, starting from
`minVal = 1, maxVal = 0`. -/

/-- `ceil(a / b)` on naturals, the kernel's
`convert_int3(ceil(convert_float(volDim)/convert_float(brickDim)))`
(exact for all realistic dimensions). -/
def ceilDiv (a b : ℕ) : ℕ := (a + b - 1) / b

/-- The voxel coordinates scanned for brick cell `c` on one axis:
`[voxPerCell*c, min(voxPerCell*c + voxPerCell, res))`. -/
def brickAxisRange (res bricks c : ℕ) : List ℕ :=
  let v := ceilDiv res bricks
  (List.range (min (v * c + v) res - v * c)).map (fun i => v * c + i)

/-- The sub-block scanned by `generateBricks` for cell `(cx, cy, cz)`. -/
def brickCoords (res bricks : I3) (cx cy cz : ℕ) : List (ℕ × ℕ × ℕ) :=
  (brickAxisRange res.z.toNat bricks.z.toNat cz).flatMap fun k =>
    (brickAxisRange res.y.toNat bricks.y.toNat cy).flatMap fun j =>
      (brickAxisRange res.x.toNat bricks.x.toNat cx).map fun i => (i, j, k)

/-- The `(min, max)` density pair `generateBricks` writes for a cell:
fold of `min`/`max` over the sub-block, from `(1, 0)`. -/
def generateBricks (d : ℕ → ℕ → ℕ → ℚ) (res bricks : I3)
    (cx cy cz : ℕ) : ℚ × ℚ :=
  (brickCoords res bricks cx cy cz).foldl
    (fun mm c => (min mm.1 (d c.1 c.2.1 c.2.2), max mm.2 (d c.1 c.2.1 c.2.2)))
    (1, 0)

/-- `RoundPow2` from `volumerendercl.cpp`: round to the nearest power of
two (the host divides each volume-resolution axis by 64 and feeds the
quotient through this before sizing the brick grid).  For `n = 0` the
`unsigned` arithmetic wraps and the function returns `0`. -/
def RoundPow2 (n : ℕ) : ℕ :=
  let v0 := (n + u32Mod - 1) % u32Mod
  let v1 := Nat.lor v0 (v0 / 2)
  let v2 := Nat.lor v1 (v1 / 4)
  let v3 := Nat.lor v2 (v2 / 16)
  let v4 := Nat.lor v3 (v3 / 256)
  let v5 := Nat.lor v4 (v4 / 65536)
  let v6 := (v5 + 1) % u32Mod
  let x := v6 / 2
  if v6 - n > n - x then x else v6

/-! ## Host orchestrator state (`VolumeRenderCL`)

Only the fields the claims talk about are modelled: the device volume
images (`_volumesMem`, kept as the uploaded byte buffers), the data
reader's loaded-data flag and buffers (`_dr`), the `_volLoaded` flag, the
rebound kernel parameter structs (camera / rendering / raycast /
path-trace fields flattened), and the progressive iteration counter.
`setArg` rebinding has no host-visible state beyond the struct fields
themselves. -/

/-- Sample formats of `DatRawReader` (`UCHAR`/`USHORT`/`FLOAT`,
anything else is invalid). -/
inductive VFormat where
  | uchar | ushort | float | unknown
deriving DecidableEq

/-- Channel orders accepted by `volDataToCLmem`. -/
inductive VChan where
  | r | rg | rgba | argb | bgra | invalid
deriving DecidableEq

/-- Bytes per sample (`formatMultiplier`). -/
def formatMultiplier : VFormat → ℕ
  | .uchar => 1
  | .ushort => 2
  | .float => 4
  | .unknown => 1

/-- Volume metadata (`DatRawReader::Properties`). -/
structure VProps where
  resX : ℕ
  resY : ℕ
  resZ : ℕ
  resT : ℕ
  format : VFormat
  chan : VChan
deriving DecidableEq

/-- The host state slice relevant to loading and progressive rendering. -/
structure HostState where
  volumesMem : List (List ℕ)   -- uploaded per-timestep volume images
  drHasData : Bool             -- `_dr.has_data()`
  drProps : VProps             -- `_dr.properties()`
  drData : List (List ℕ)       -- `_dr.data()`
  volLoaded : Bool             -- `_volLoaded`
  iteration : ℕ                -- `_rendering_params.iteration`
  viewMat : Fin 16 → ℚ         -- `_camera_params.viewMat`
  ortho : Bool                 -- `_camera_params.ortho`
  bboxBl : V3                  -- `_camera_params.bbox_bl`
  bboxTr : V3                  -- `_camera_params.bbox_tr`
  samplingRate : ℚ             -- `_raycast_params.samplingRate`
  illumType : ℕ                -- `_rendering_params.illumType`
  useAO : Bool                 -- `_raycast_params.useAO`
  showEss : Bool               -- `_rendering_params.showEss`
  useLinear : Bool             -- `_rendering_params.useLinear`
  contours : Bool              -- `_raycast_params.contours`
  aerial : Bool                -- `_raycast_params.aerial`
  imgEss : Bool                -- `_rendering_params.imgEss`
  objEss : Bool                -- kernel compiled with `-DESS`
  backgroundCol : V3           -- `_rendering_params.backgroundColor`
  useGradient : Bool           -- `_rendering_params.useGradient`
  technique : ℕ                -- `_rendering_params.technique`
  maxExtinction : ℚ            -- `_pathtrace_params.max_extinction`
  timestep : ℕ                 -- `_timestep`

/-- `VolumeRenderCL::resetIteration`. -/
def resetIteration (st : HostState) : HostState := { st with iteration := 0 }

/-- `VolumeRenderCL::updateView` (sets the view matrix, rebinds camera
args, resets the iteration). -/
def updateView (m : Fin 16 → ℚ) (st : HostState) : HostState :=
  resetIteration { st with viewMat := m }

/-- `VolumeRenderCL::updateSamplingRate` (rebinds raycast args only). -/
def updateSamplingRate (v : ℚ) (st : HostState) : HostState :=
  { st with samplingRate := v }

/-- `VolumeRenderCL::setCamOrtho`. -/
def setCamOrtho (b : Bool) (st : HostState) : HostState :=
  { st with ortho := b }

/-- `VolumeRenderCL::setBBox` (clip box; resets the iteration). -/
def setBBox (bl tr : V3) (st : HostState) : HostState :=
  resetIteration { st with bboxBl := bl, bboxTr := tr }

/-- `VolumeRenderCL::setIllumination`. -/
def setIllumination (v : ℕ) (st : HostState) : HostState :=
  { st with illumType := v }

/-- `VolumeRenderCL::setAmbientOcclusion`. -/
def setAmbientOcclusion (b : Bool) (st : HostState) : HostState :=
  { st with useAO := b }

/-- `VolumeRenderCL::setShowESS`. -/
def setShowESS (b : Bool) (st : HostState) : HostState :=
  { st with showEss := b }

/-- `VolumeRenderCL::setLinearInterpolation`. -/
def setLinearInterpolation (b : Bool) (st : HostState) : HostState :=
  { st with useLinear := b }

/-- `VolumeRenderCL::setContours`. -/
def setContours (b : Bool) (st : HostState) : HostState :=
  { st with contours := b }

/-- `VolumeRenderCL::setAerial`. -/
def setAerial (b : Bool) (st : HostState) : HostState :=
  { st with aerial := b }

/-- `VolumeRenderCL::setImgEss`. -/
def setImgEss (b : Bool) (st : HostState) : HostState :=
  { st with imgEss := b }

/-- `VolumeRenderCL::setBackground`. -/
def setBackground (c : V3) (st : HostState) : HostState :=
  { st with backgroundCol := c }

/-- `VolumeRenderCL::setUseGradient`. -/
def setUseGradient (b : Bool) (st : HostState) : HostState :=
  { st with useGradient := b }

/-- `VolumeRenderCL::setTechnique` (resets the iteration). -/
def setTechnique (t : ℕ) (st : HostState) : HostState :=
  resetIteration { st with technique := t }

/-- `VolumeRenderCL::setExtinction`. -/
def setExtinction (v : ℚ) (st : HostState) : HostState :=
  { st with maxExtinction := v }

/-- `VolumeRenderCL::setTimestep` (resets the iteration when the
timestep is in range). -/
def setTimestep (t : ℕ) (st : HostState) : HostState :=
  if st.drHasData && decide (st.drProps.resT ≤ t) then st
  else resetIteration { st with timestep := t }

/-! ### Volume upload (`volDataToCLmem` / `loadVolumeData`)

`volDataToCLmem` validates channel order and sample format, clears the
previous device images, then uploads each timestep buffer — but throws
`"Volume size does not match…"` (after calling `_dr.clearData()`) as soon
as a buffer holds fewer than `resX*resY*resZ*formatMultiplier` bytes.
Buffers larger than that requirement are accepted unchecked.  An error
result carries the state as it stands at the throw. -/

/-- Required byte count per timestep buffer. -/
def requiredBytes (p : VProps) : ℕ :=
  p.resX * p.resY * p.resZ * formatMultiplier p.format

/-- The upload loop of `volDataToCLmem`: push buffers until one is too
small. -/
def uploadLoop (p : VProps) (st : HostState) :
    List (List ℕ) → HostState × Option String
  | [] => (st, none)
  | v :: rest =>
    if requiredBytes p > v.length then
      ({ st with drHasData := false, drData := [] },
       some "Volume size does not match size specified in dat file.")
    else
      uploadLoop p { st with volumesMem := st.volumesMem ++ [v] } rest

/-- `VolumeRenderCL::volDataToCLmem` (the `std::vector<std::vector<char>>`
overload).  Returns the post-call state and `some errorMessage` when an
exception escapes. -/
def volDataToCLmem (volumeData : List (List ℕ)) (st : HostState) :
    HostState × Option String :=
  if ¬ st.drHasData then (st, none)
  else if st.drProps.chan = VChan.invalid then
    (st, some "Unknown or invalid volume color format.")
  else if st.drProps.format = VFormat.unknown then
    (st, some "Unknown or invalid volume data format.")
  else
    uploadLoop st.drProps { st with volumesMem := [] } volumeData

/-- The prefix-sum vector `loadVolumeData` installs for its default
linear transfer function: `partial_sum` over `[0, 4, 8, …, 4·1023]`. -/
def defaultTffPrefix : List ℕ :=
  runSumU32 ((List.range 1024).map (fun i => i * 4)) 0

/-- `VolumeRenderCL::loadVolumeData`.  File parsing is an oracle: `read`
is the outcome of `_dr.read_files` (new properties and raw buffers, or a
parse error).  Returns the post-call state and either the timestep count
or the propagated error message. -/
def loadVolumeData (read : Option (VProps × List (List ℕ)))
    (st : HostState) : HostState × (ℕ ⊕ String) :=
  let st₀ := { st with volLoaded := false }
  match read with
  | none => (st₀, Sum.inr "read error")
  | some (props, data) =>
    let st₁ := { st₀ with drHasData := true, drProps := props, drData := data }
    match volDataToCLmem data st₁ with
    | (st₂, some e) => (st₂, Sum.inr e)
    | (st₂, none) => ({ st₂ with volLoaded := true }, Sum.inl data.length)

/-! ## The `volumeRender` traversal (`volumeraycast.cl` lines 659–845)

The embedding starts where the per-pixel preamble ends: ray set-up,
box intersection and the early-outs (lines 551–630) are shared verbatim
between the two kernel compilations (none of them sits inside `#ifdef
ESS`), so the traversal takes the per-ray quantities they produce —
`camPos`, `rayDir`, `tnear`, `tfar`, the jitter fraction `rand` — as
inputs.  Two scalars whose source formulas contain a square root
(`length(sampleDist*rayDir*volRes)` for the step size,
`length(brickLen)*2` for the brick diagonal) are inputs as well; for the
concrete scenes below their exact values are certified by `Real.sqrt`
lemmas.  Device images are oracles (`volNear`/`volLin` for the volume
texture under the two samplers, `brickAt` for the brick min/max image);
the transfer-function and prefix textures are read from the uploaded
byte tables through the sampler model above.  The gradient-based shading
of lines 748–783 mixes `fast_normalize`/`native_powr` irrationals, so
the xyz-only colour adjustments it performs enter through the oracles
`shade`/`contourFac`/`gradMag`, and `native_powr`/`calcAO` through
`powr`/`aoAt`.  Loops take explicit fuel; every theorem either holds for
all fuels or fixes a fuel large enough for the scene. -/

/-- Static inputs of one `volumeRender` ray. -/
structure RCfg where
  volNear : V3 → Quad          -- `read_imagef(volData, nearestSmp, ·)`
  volLin : V3 → Quad           -- `read_imagef(volData, linearSmp, ·)`
  chan : VChan                 -- `get_image_channel_order(volData)`
  tffR : ℕ → ℕ                 -- uploaded RGBA table, red bytes
  tffG : ℕ → ℕ
  tffB : ℕ → ℕ
  tffA : ℕ → ℕ
  tffLen : ℕ
  pfxT : ℕ → ℕ                 -- uploaded prefix-sum table
  pfxLen : ℕ
  brickAt : I3 → ℚ × ℚ         -- `read_imagef(volBrickData, cell).xy`
  bricksRes : I3               -- `get_image_dim(volBrickData)`
  volResX : ℕ                  -- `get_image_dim(volData)`
  volResY : ℕ
  volResZ : ℕ
  background : Quad
  illumType : ℕ
  useLinear : Bool
  aerial : Bool
  contours : Bool
  useAO : Bool
  showEss : Bool
  samplingRate : ℚ
  camPos : V3
  rayDir : V3
  tnear0 : ℚ                   -- `tnear` from `intersectBox`, pre-clamp
  tfar : ℚ
  rand : ℚ                     -- `ParallelRNG2(x,y)/UINT_MAX`
  lenVRD : ℚ                   -- `length(sampleDist*rayDir*volRes)`
  brickDiaQ : ℚ                -- `length(brickLen)*2`
  powr : ℚ → ℚ → ℚ             -- `native_powr`
  shade : ℕ → V3 → V3 → V3     -- lines 763–776 (xyz only)
  contourFac : ℕ → V3 → ℚ      -- `fabs(dot(rayDir, gradient.xyz))`
  gradMag : ℕ → V3 → ℚ         -- `gradientCentralDiff(...).w` (illum 4)
  aoAt : V3 → ℚ                -- `calcAO(...)`

/-- `sampleDist = tfar - tnear` (computed before `tnear` is clamped). -/
def RCfg.sampleDist (c : RCfg) : ℚ := c.tfar - c.tnear0

/-- The equalized step size: `stepSize = sampleDist / ceil(sampleDist /
min(sampleDist, sampleDist/(samplingRate*lenVRD)))`. -/
def RCfg.stepSize (c : RCfg) : ℚ :=
  let s0 := min c.sampleDist (c.sampleDist / (c.samplingRate * c.lenVRD))
  c.sampleDist / (⌈c.sampleDist / s0⌉ : ℤ)

/-- `offset = stepSize * rand * 0.9`. -/
def RCfg.offset (c : RCfg) : ℚ := c.stepSize * c.rand * (9/10)

/-- `tnear = max(0, tnear)`. -/
def RCfg.tnear (c : RCfg) : ℚ := max 0 c.tnear0

/-- `refSamplingInterval = 1/samplingRate`. -/
def RCfg.refSI (c : RCfg) : ℚ := 1 / c.samplingRate

/-- `voxLen = 1/volRes`. -/
def RCfg.voxLen (c : RCfg) : V3 :=
  ⟨1 / (c.volResX : ℚ), 1 / (c.volResY : ℚ), 1 / (c.volResZ : ℚ)⟩

/-- RGBA lookup in the uploaded transfer-function table. -/
def RCfg.tff (c : RCfg) (u : ℚ) : Quad :=
  tffSample c.tffR c.tffG c.tffB c.tffA c.tffLen u

/-- Loop-carried per-ray state (`t`, `result.xyz`, `alpha`, `pos`, and
`tfColor`, which C declares outside the loop and which therefore
persists across iterations). -/
structure RState where
  t : ℚ
  res : V3
  alpha : ℚ
  pos : V3
  tfc : Quad
deriving DecidableEq

/-- Initial per-ray state: `t = tnear`, `result = background`,
`alpha = 0`, `pos = 0`, `tfColor = 0`. -/
def rcInit (c : RCfg) : RState :=
  ⟨c.tnear, ⟨c.background.x, c.background.y, c.background.z⟩, 0,
   ⟨0, 0, 0⟩, ⟨0, 0, 0, 0⟩⟩

/-- The sample position of the loop body: `pos = (camPos +
(t-offset)*rayDir)*0.5 + 0.5`. -/
def rcPos (c : RCfg) (t : ℚ) : V3 :=
  let p0 := V3.add c.camPos (V3.smul (t - c.offset) c.rayDir)
  ⟨p0.x * (1/2) + 1/2, p0.y * (1/2) + 1/2, p0.z * (1/2) + 1/2⟩

/-- The `tfColor` computation of one sample (lines 747–800):
gradient-magnitude shading for `illumType == 4`, otherwise dispatch on
the volume's channel order — classification through the transfer
function for `CLK_R` (with optional shading and contour factors on the
colour part), the raw volume sample for `CLK_RGBA`, magnitude-mapped
alpha for `CLK_RG`; any other channel order leaves the loop-carried
`tfColor` unchanged. -/
def rcTfColor (c : RCfg) (prev : Quad) (pos : V3) : Quad :=
  if c.illumType = 4 then
    c.tff (c.gradMag 4 pos)
  else
    match c.chan with
    | .r =>
      let density := if c.useLinear then (c.volLin pos).x else (c.volNear pos).x
      let c0 := c.tff density
      let c1 := if 1/10 < c0.w ∧ c.illumType ≠ 0 then
          let sh := c.shade c.illumType pos ⟨c0.x, c0.y, c0.z⟩
          ⟨sh.x, sh.y, sh.z, c0.w⟩
        else c0
      if 1/10 < c1.w ∧ c.contours then
        let f := c.contourFac c.illumType pos
        ⟨c1.x * f, c1.y * f, c1.z * f, c1.w⟩
      else c1
    | .rgba => if c.useLinear then c.volLin pos else c.volNear pos
    | .rg =>
      let v := if c.useLinear then c.volLin pos else c.volNear pos
      ⟨v.x, 0, v.z, (c.tff |v.y|).w⟩
    | _ => prev

/-- One sample of the standard raycasting loop (lines 744–812): position,
`tfColor`, background-relative colour flip, optional aerial attenuation,
Taylor opacity correction and the front-to-back composite. -/
def rcBody (c : RCfg) (s : RState) : RState :=
  let pos := rcPos c s.t
  let tfc1 := rcTfColor c s.tfc pos
  let tfc2 : Quad := ⟨c.background.x - tfc1.x, c.background.y - tfc1.y,
                      c.background.z - tfc1.z, tfc1.w⟩
  let tfc3 : Quad :=
    if c.aerial then
      { tfc2 with w := tfc2.w * (1 - (s.t - c.tnear) / c.sampleDist) }
    else tfc2
  let opacity := 1 - c.powr (1 - tfc3.w) c.refSI
  let res' := V3.sub s.res (V3.smul (opacity * (1 - s.alpha))
                              ⟨tfc3.x, tfc3.y, tfc3.z⟩)
  let alpha' := s.alpha + opacity * (1 - s.alpha)
  ⟨s.t, res', alpha', pos, tfc3⟩

/-- The inner sampling loop `while (t < t_exit) { … }` with its
mid-body exits: `break` on `t >= tfar`, and on `alpha > 0.98` (early ray
termination, darkening by ambient occlusion first when enabled). -/
def rcInner (c : RCfg) (tExit : ℚ) : ℕ → RState → RState
  | 0, s => s
  | fuel + 1, s =>
    if s.t < tExit then
      let s' := rcBody c s
      if c.tfar ≤ s'.t then s'
      else if 49/50 < s'.alpha then
        if c.useAO then
          { s' with res := V3.smul (1 - (c.aoAt s'.pos) / 2) s'.res }
        else s'
      else rcInner c tExit fuel { s' with t := s'.t + c.stepSize }
    else s

/-! ### The object-order-ESS compilation (`#ifdef ESS`, lines 683–832) -/

/-- `approxEq`: float comparison against `FLT_EPSILON`. -/
def approxEq (a b : ℚ) : Bool := |a - b| < fltEps

/-- OpenCL `sign`. -/
def signQ (q : ℚ) : ℤ := if 0 < q then 1 else if q < 0 then -1 else 0

/-- `brickLen = 1/bricksRes`. -/
def RCfg.brickLen (c : RCfg) : V3 :=
  ⟨1 / (c.bricksRes.x : ℚ), 1 / (c.bricksRes.y : ℚ), 1 / (c.bricksRes.z : ℚ)⟩

/-- `step = select(convert_int3(sign(rayDir)), 1, approxEq3(rayDir, 0))`. -/
def RCfg.stepVec (c : RCfg) : I3 :=
  ⟨if approxEq c.rayDir.x 0 then 1 else signQ c.rayDir.x,
   if approxEq c.rayDir.y 0 then 1 else signQ c.rayDir.y,
   if approxEq c.rayDir.z 0 then 1 else signQ c.rayDir.z⟩

/-- `invRay = select(1/rayDir, FLT_MAX, approxEq3(rayDir, 0))`. -/
def RCfg.invRay (c : RCfg) : V3 :=
  ⟨if approxEq c.rayDir.x 0 then fltMax else 1 / c.rayDir.x,
   if approxEq c.rayDir.y 0 then fltMax else 1 / c.rayDir.y,
   if approxEq c.rayDir.z 0 then fltMax else 1 / c.rayDir.z⟩

/-- `deltaT = convert_float3(step) * (brickLen*2*invRay)`. -/
def RCfg.deltaT (c : RCfg) : V3 :=
  ⟨(c.stepVec.x : ℚ) * (c.brickLen.x * 2 * c.invRay.x),
   (c.stepVec.y : ℚ) * (c.brickLen.y * 2 * c.invRay.y),
   (c.stepVec.z : ℚ) * (c.brickLen.z * 2 * c.invRay.z)⟩

/-- `rayOrigCell = (camPos + rayDir*tnear) - (-1,-1,-1)`. -/
def RCfg.rayOrigCell (c : RCfg) : V3 :=
  let q := V3.add c.camPos (V3.smul c.tnear c.rayDir)
  ⟨q.x + 1, q.y + 1, q.z + 1⟩

/-- Initial DDA cell: `clamp(floor(rayOrigCell/(2*brickLen)), 0,
bricksRes-1)`. -/
def RCfg.cellInit (c : RCfg) : I3 :=
  ⟨clampI ⌊c.rayOrigCell.x / (2 * c.brickLen.x)⌋ 0 (c.bricksRes.x - 1),
   clampI ⌊c.rayOrigCell.y / (2 * c.brickLen.y)⌋ 0 (c.bricksRes.y - 1),
   clampI ⌊c.rayOrigCell.z / (2 * c.brickLen.z)⌋ 0 (c.bricksRes.z - 1)⟩

/-- Initial `tv` (`isgreaterequal` on vectors yields `-1` for true). -/
def RCfg.tvInit (c : RCfg) : V3 :=
  let adj : I3 := ⟨c.cellInit.x - (if 0 ≤ c.rayDir.x then -1 else 0),
                   c.cellInit.y - (if 0 ≤ c.rayDir.y then -1 else 0),
                   c.cellInit.z - (if 0 ≤ c.rayDir.z then -1 else 0)⟩
  ⟨c.tnear + ((adj.x : ℚ) * (2 * c.brickLen.x) - c.rayOrigCell.x) * c.invRay.x,
   c.tnear + ((adj.y : ℚ) * (2 * c.brickLen.y) - c.rayOrigCell.y) * c.invRay.y,
   c.tnear + ((adj.z : ℚ) * (2 * c.brickLen.z) - c.rayOrigCell.z) * c.invRay.z⟩

/-- `exit = select(step*bricksRes, -1, step*bricksRes < 0)`. -/
def RCfg.exitCell (c : RCfg) : I3 :=
  let e : I3 := ⟨c.stepVec.x * c.bricksRes.x, c.stepVec.y * c.bricksRes.y,
                 c.stepVec.z * c.bricksRes.z⟩
  ⟨if e.x < 0 then -1 else e.x, if e.y < 0 then -1 else e.y,
   if e.z < 0 then -1 else e.z⟩

/-- DDA state: the per-ray state plus the current cell and the
per-axis next-boundary parameters `tv`. -/
structure EState where
  rs : RState
  cell : I3
  tv : V3
deriving DecidableEq

/-- Initial DDA state. -/
def essInit (c : RCfg) : EState := ⟨rcInit c, c.cellInit, c.tvInit⟩

/-- One DDA advance (lines 717–725): from the current cell and `tv`,
the next cell, the updated `tv`, and the clamped brick-exit distance
`t_exit` (on `tv` ties the kernel adds the tied components, which the
`dot`-product sum reproduces). -/
def rcDDAStep (c : RCfg) (es : EState) : I3 × V3 × ℚ :=
  let bx := es.tv.x ≤ es.tv.y ∧ es.tv.x ≤ es.tv.z
  let by' := es.tv.y ≤ es.tv.x ∧ es.tv.y ≤ es.tv.z
  let bz := es.tv.z ≤ es.tv.x ∧ es.tv.z ≤ es.tv.y
  let cell' : I3 := ⟨es.cell.x + (if bx then c.stepVec.x else 0),
                     es.cell.y + (if by' then c.stepVec.y else 0),
                     es.cell.z + (if bz then c.stepVec.z else 0)⟩
  let tExit0 := (if bx then es.tv.x else 0) + (if by' then es.tv.y else 0)
                  + (if bz then es.tv.z else 0)
  let tExit := clampQ tExit0 (es.rs.t + c.stepSize) (es.rs.t + c.brickDiaQ)
  let tv' : V3 := ⟨es.tv.x + (if bx then c.deltaT.x else 0),
                   es.tv.y + (if by' then c.deltaT.y else 0),
                   es.tv.z + (if bz then c.deltaT.z else 0)⟩
  (cell', tv', tExit)

/-- The 3-D-DDA outer loop `while (t < tfar)` (lines 713–831): read the
brick, advance the cell along the smallest `tv`, clamp the brick-exit
distance into `[t+stepSize, t+brickDia]`, skip fully-transparent bricks
via `essSkipTest`, otherwise run the inner sampling loop and stop on
early termination or on leaving the grid. -/
def rcOuter (c : RCfg) (innerFuel : ℕ) : ℕ → EState → EState
  | 0, es => es
  | fuel + 1, es =>
    if es.rs.t < c.tfar then
      let mm := c.brickAt es.cell
      let u := rcDDAStep c es
      if essSkipTest c.tffA c.tffLen c.pfxT c.pfxLen mm.1 mm.2 then
        rcOuter c innerFuel fuel ⟨{ es.rs with t := u.2.2 }, u.1, u.2.1⟩
      else
        let rs' := rcInner c u.2.2 innerFuel es.rs
        if c.tfar ≤ rs'.t ∨ 49/50 < rs'.alpha then ⟨rs', u.1, u.2.1⟩
        else if u.1.x = c.exitCell.x ∨ u.1.y = c.exitCell.y ∨
                 u.1.z = c.exitCell.z then ⟨rs', u.1, u.2.1⟩
        else rcOuter c innerFuel fuel ⟨{ rs' with t := u.2.2 }, u.1, u.2.1⟩
    else es

/-- `checkBoundingBox` (lines 323–342), used by the ESS debug overlay. -/
def checkBoundingBox (pos voxLen : V3) (bound : ℚ × ℚ) : Bool :=
  (pos.x < voxLen.x && pos.z < bound.1 + voxLen.z) ||
  (pos.x < voxLen.x && pos.y < voxLen.y) ||
  (pos.y < voxLen.y && pos.z < bound.1 + voxLen.z) ||
  (1 - voxLen.x < pos.x && pos.z < bound.1 + voxLen.z) ||
  (1 - voxLen.y < pos.y && pos.z < bound.1 + voxLen.z) ||
  (1 - voxLen.x < pos.x && bound.2 - voxLen.z < pos.z) ||
  (1 - voxLen.y < pos.y && bound.2 - voxLen.z < pos.z) ||
  (pos.x < voxLen.x && bound.2 - voxLen.z < pos.z) ||
  (pos.y < voxLen.y && bound.2 - voxLen.z < pos.z) ||
  (1 - voxLen.x < pos.x && pos.y < voxLen.y) ||
  (1 - voxLen.x < pos.x && 1 - voxLen.y < pos.y) ||
  (pos.x < voxLen.x && 1 - voxLen.y < pos.y)

/-- Epilogue (lines 834–845): optional ESS visualization overlay, then
`result.w = alpha`. -/
def rcFinal (c : RCfg) (s : RState) : Quad :=
  if c.showEss && checkBoundingBox s.pos c.voxLen (0, 1) then
    ⟨|1 - c.background.x|, |1 - c.background.y|, |1 - c.background.z|, 1⟩
  else
    ⟨s.res.x, s.res.y, s.res.z, s.alpha⟩

/-- The pixel value of the kernel compiled WITHOUT `-DESS`: one pass of
the standard loop with `t_exit = tfar`. -/
def volumeRenderNoESS (c : RCfg) (innerFuel : ℕ) : Quad :=
  rcFinal c (rcInner c c.tfar innerFuel (rcInit c))

/-- The pixel value of the kernel compiled WITH `-DESS`. -/
def volumeRenderESS (c : RCfg) (outerFuel innerFuel : ℕ) : Quad :=
  rcFinal c (rcOuter c innerFuel outerFuel (essInit c)).rs

/-! ## Concrete scenes

`essCounterScene` is a complete static scene on which the two kernel
compilations disagree.  Geometry: a `1×1×140` single-channel `UNORM8`
volume (so densities are exact multiples of `1/255`), brick grid
`1×1×70` (the host sizes it this way: `RoundPow2(140/64) = 2` voxels per
brick per axis, grid `= ceil(140/2) = 70`), identity view matrix with
translation `(0,0,2)` watched through the centre pixel of a `1×1` image:
`camPos = (0,0,2)`, `rayDir = (0,0,-1)`, `intersectBox` gives
`tnear = 1`, `tfar = 3`.  `samplingRate = 1` makes the `native_powr`
exponent exactly `1`, so the oracle `powr x _ = x` is exact.
`length(sampleDist*rayDir*volRes) = |(0,0,-280)| = 280` and
`length(brickLen)*2 = 2*sqrt(1 + 1 + 1/4900) = 99/35` are exact
rationals (certified below by `essScene_lenVRD_exact` and
`essScene_brickDia_exact`).

Volume content: voxel 138 has byte `102` (density `0.4`), voxel 139 byte
`153` (density `0.6`), all others byte `204` (density `0.8`).  Transfer
function: all alpha and red mass sits in table bucket 409 — the bucket
hit by density `0.4` — and the prefix table is its running sum
(certified by `essScene_pfx_is_tffPrefixOf`). -/

/-- Nearest-filtered read of a `CL_R` 3-D image under `nearestSmp`
(`CLK_ADDRESS_CLAMP`: border colour `(0,0,0,1)` outside the image). -/
def tex3DNearestR (f : ℕ → ℕ → ℕ → ℕ) (rx ry rz : ℕ) (p : V3) : Quad :=
  let i : ℤ := ⌊p.x * rx⌋
  let j : ℤ := ⌊p.y * ry⌋
  let k : ℤ := ⌊p.z * rz⌋
  if 0 ≤ i ∧ i < rx ∧ 0 ≤ j ∧ j < ry ∧ 0 ≤ k ∧ k < rz then
    ⟨(f i.toNat j.toNat k.toNat : ℚ) / 255, 0, 0, 1⟩
  else ⟨0, 0, 0, 1⟩

/-- The scene's volume bytes. -/
def cexVolByte (_i _j : ℕ) (k : ℕ) : ℕ :=
  if k = 138 then 102 else if k = 139 then 153 else 204

/-- The scene's normalized densities. -/
def cexDensity (i j k : ℕ) : ℚ := (cexVolByte i j k : ℚ) / 255

/-- The scene's transfer-function red bytes. -/
def cexTffR (i : ℕ) : ℕ := if i = 409 then 255 else 0

/-- The scene's transfer-function alpha bytes. -/
def cexTffA (i : ℕ) : ℕ := if i = 409 then 255 else 0

/-- The scene's alpha prefix sums (running sum of `cexTffA`). -/
def cexPfx (i : ℕ) : ℕ := if 409 ≤ i then 255 else 0

/-- The raw RGBA byte table whose channels are
`cexTffR/0/0/cexTffA` (what the host would pass to
`setTransferFunction`). -/
def cexTffTable : List ℕ :=
  (List.range 1024).flatMap (fun i => [cexTffR i, 0, 0, cexTffA i])

/-- The full static scene. -/
def essCounterScene : RCfg where
  volNear := tex3DNearestR cexVolByte 1 1 140
  volLin := fun _ => ⟨0, 0, 0, 1⟩      -- unused: useLinear = false
  chan := .r
  tffR := cexTffR
  tffG := fun _ => 0
  tffB := fun _ => 0
  tffA := cexTffA
  tffLen := 1024
  pfxT := cexPfx
  pfxLen := 1024
  brickAt := fun cell =>
    generateBricks cexDensity ⟨1, 1, 140⟩ ⟨1, 1, 70⟩
      cell.x.toNat cell.y.toNat cell.z.toNat
  bricksRes := ⟨1, 1, 70⟩
  volResX := 1
  volResY := 1
  volResZ := 140
  background := ⟨0, 0, 0, 0⟩
  illumType := 0
  useLinear := false
  aerial := false
  contours := false
  useAO := false
  showEss := false
  samplingRate := 1
  camPos := ⟨0, 0, 2⟩
  rayDir := ⟨0, 0, -1⟩
  tnear0 := 1
  tfar := 3
  rand := mapUintFloat (ParallelRNG2 0 0)
  lenVRD := 280
  brickDiaQ := 99 / 35
  powr := fun x _ => x                 -- native_powr at exponent 1
  shade := fun _ _ rgb => rgb          -- unused: illumType = 0
  contourFac := fun _ _ => 0           -- unused: contours = false
  gradMag := fun _ _ => 0              -- unused: illumType ≠ 4
  aoAt := fun _ => 0                   -- unused: useAO = false

/-- The same geometry with a fully transparent transfer function
(every table byte zero): the scene used to witness the
background-preservation theorem. -/
def zeroTffScene : RCfg :=
  { essCounterScene with
    tffR := fun _ => 0
    tffA := fun _ => 0
    pfxT := fun _ => 0 }

/-- The same geometry over a four-channel (`CL_RGBA`) volume whose
voxels carry the opaque colour `(1,0,0,1)` directly, still with the
fully transparent transfer function: `volumeRender` takes the volume
sample as `tfColor` verbatim in this channel mode, so the pixel is not
the background colour. -/
def rgbaOpaqueScene : RCfg :=
  { zeroTffScene with
    chan := .rgba
    volNear := fun _ => ⟨1, 0, 0, 1⟩
    volLin := fun _ => ⟨1, 0, 0, 1⟩ }

/-! ## Concrete host states -/

/-- A host state with one volume already loaded and five progressive
iterations accumulated. -/
def exHostState : HostState where
  volumesMem := [[7]]
  drHasData := true
  drProps := ⟨1, 1, 1, 1, .uchar, .r⟩
  drData := [[7]]
  volLoaded := true
  iteration := 5
  viewMat := fun _ => 0
  ortho := false
  bboxBl := ⟨0, 0, 0⟩
  bboxTr := ⟨1, 1, 1⟩
  samplingRate := 1
  illumType := 0
  useAO := false
  showEss := false
  useLinear := true
  contours := false
  aerial := false
  imgEss := false
  objEss := false
  backgroundCol := ⟨0, 0, 0⟩
  useGradient := false
  technique := 0
  maxExtinction := 100
  timestep := 0

/-- Metadata for a `2×2×2` single-timestep `UCHAR` density volume
(8 bytes required per buffer). -/
def cexProps : VProps := ⟨2, 2, 2, 1, .uchar, .r⟩

/-! # Theorems -/

/-! ## C8: progressive accumulation is a running mean -/

theorem accumFrom_eq_avg (rest : List ℚ) : ∀ (n : ℕ) (buf : ℚ), 1 ≤ n →
    accumFrom n buf rest = ((n : ℚ) * buf + rest.sum) / ((n : ℚ) + rest.length) := by
  induction rest with
  | nil =>
    intro n buf hn
    have hn' : (n : ℚ) ≠ 0 := by positivity
    simp [accumFrom, hn']
  | cons s rest ih =>
    intro n buf hn
    have hn0 : n ≠ 0 := by omega
    have hstep : accumStep n buf s = buf + (s - buf) / ((n : ℚ) + 1) := by
      simp [accumStep, hn0]
    have := ih (n + 1) (accumStep n buf s) (by omega)
    rw [show accumFrom n buf (s :: rest)
          = accumFrom (n + 1) (accumStep n buf s) rest from rfl, this, hstep]
    have hq1 : ((n : ℚ) + 1) ≠ 0 := by positivity
    have hq2 : ((n : ℚ) + 1 + (rest.length : ℚ)) ≠ 0 := by positivity
    simp only [List.sum_cons, List.length_cons]
    push_cast
    field_simp
    ring

/-- Claim C8: the accumulation rule of `volumeRender` (write-through at
iteration 0, blend with weight `1/(n+1)` at iteration `n`) computes the
arithmetic mean of all samples accumulated so far: after feeding any
sample sequence through `accumStep`, the buffer holds `sum/length`. -/
theorem accumRun_is_running_mean (samples : List ℚ) :
    accumRun samples = samples.sum / samples.length := by
  cases samples with
  | nil => simp [accumRun, accumFrom]
  | cons s rest =>
    rw [accumRun, accumFrom, accumFrom_eq_avg rest 1 (accumStep 0 0 s) le_rfl]
    simp [accumStep]
    ring_nf

/-! ## C6: which setters reset the progressive iteration counter -/

/-- Counterexample to claim C6: `setCamOrtho` — the projection-kind
setter, explicitly listed by the claim — does not reset the progressive
iteration counter: called on a state with five accumulated iterations it
leaves the counter at 5. -/
theorem setter_reset_cex :
    (setCamOrtho true exHostState).iteration = 5 ∧
      ¬ (setCamOrtho true exHostState).iteration = 0 := by
  constructor <;> decide

/-- Claim C6 (amended): among the camera/render-control setters, exactly
the view-matrix, clip-box and technique setters reset the progressive
iteration counter to zero; the projection-kind, sampling-rate,
extinction and every boolean-toggle setter leave it unchanged. -/
theorem setter_iteration_behavior (st : HostState) (m : Fin 16 → ℚ)
    (v e : ℚ) (b : Bool) (bl tr : V3) (n tech : ℕ) (col : V3) :
    (updateView m st).iteration = 0 ∧
    (setBBox bl tr st).iteration = 0 ∧
    (setTechnique tech st).iteration = 0 ∧
    (updateSamplingRate v st).iteration = st.iteration ∧
    (setCamOrtho b st).iteration = st.iteration ∧
    (setExtinction e st).iteration = st.iteration ∧
    (setIllumination n st).iteration = st.iteration ∧
    (setAmbientOcclusion b st).iteration = st.iteration ∧
    (setShowESS b st).iteration = st.iteration ∧
    (setLinearInterpolation b st).iteration = st.iteration ∧
    (setContours b st).iteration = st.iteration ∧
    (setAerial b st).iteration = st.iteration ∧
    (setImgEss b st).iteration = st.iteration ∧
    (setBackground col st).iteration = st.iteration ∧
    (setUseGradient b st).iteration = st.iteration := by
  refine ⟨rfl, rfl, rfl, rfl, rfl, rfl, rfl, rfl, rfl, rfl, rfl, rfl, rfl,
    rfl, rfl⟩

/-! ## C7: termination of the Woodcock free-flight loop -/

theorem sampleInteractLoop_exits (vol : V3 → ℚ) (A : ℕ → ℕ) (L : ℕ)
    (rp rd : V3) (me dt rq : ℚ) :
    ∀ (fuel cnt : ℕ) (t : ℚ), cnt ≤ 513 → 514 ≤ cnt + fuel →
      ∃ r n, sampleInteractLoop vol A L rp rd me dt rq fuel cnt t = some (r, n) ∧
        n ≤ 513 ∧
        (∀ p s, r = some (p, s) → in_volume p = true ∧ rq ≤ s) := by
  intro fuel
  induction fuel with
  | zero => intro cnt t h1 h2; omega
  | succ fuel ih =>
    intro cnt t h1 h2
    rw [sampleInteractLoop]
    by_cases hiv : in_volume (rp.add (V3.smul (t + dt) rd))
    · by_cases h512 : 512 < cnt
      · refine ⟨none, cnt, ?_, h1, ?_⟩
        · simp [hiv, h512]
        · intro p s h; exact absurd h (by simp)
      · by_cases hrej : siMapped vol A L me (rp.add (V3.smul (t + dt) rd)) < rq
        · obtain ⟨r, n, hr, hn, hacc⟩ := ih (cnt + 1) (t + dt) (by omega) (by omega)
          refine ⟨r, n, ?_, hn, hacc⟩
          simpa [hiv, h512, hrej] using hr
        · refine ⟨some (rp.add (V3.smul (t + dt) rd),
              siMapped vol A L me (rp.add (V3.smul (t + dt) rd))),
            cnt, ?_, h1, ?_⟩
          · simp [hiv, h512, hrej]
          · rintro p s ⟨rfl, rfl⟩
            exact ⟨hiv, le_of_not_lt hrej⟩
    · refine ⟨none, cnt, ?_, h1, ?_⟩
      · simp [hiv]
      · intro p s h; exact absurd h (by simp)

theorem sampleInteractLoop_stable (vol : V3 → ℚ) (A : ℕ → ℕ) (L : ℕ)
    (rp rd : V3) (me dt rq : ℚ) :
    ∀ (f g cnt : ℕ) (t : ℚ), cnt ≤ 513 → 514 ≤ cnt + f → 514 ≤ cnt + g →
      sampleInteractLoop vol A L rp rd me dt rq f cnt t =
        sampleInteractLoop vol A L rp rd me dt rq g cnt t := by
  intro f
  induction f with
  | zero => intro g cnt t h1 h2 _; omega
  | succ f ih =>
    intro g cnt t h1 h2 h3
    obtain ⟨g', rfl⟩ : ∃ g', g = g' + 1 := ⟨g - 1, by omega⟩
    rw [sampleInteractLoop, sampleInteractLoop]
    by_cases hiv : in_volume (rp.add (V3.smul (t + dt) rd))
    · by_cases h512 : 512 < cnt
      · simp [hiv, h512]
      · by_cases hrej : siMapped vol A L me (rp.add (V3.smul (t + dt) rd)) < rq
        · simp only [hiv, h512, hrej, not_true_eq_false, if_false,
            not_false_eq_true, ite_true, ite_false]
          exact ih g' (cnt + 1) (t + dt) (by omega) (by omega) (by omega)
        · simp [hiv, h512, hrej]
    · simp [hiv]

/-- Claim C7: the free-flight rejection loop of `sample_interaction`
always terminates within the iteration cap: for every volume content,
transfer function, ray, extinction bound, step length and rejection
threshold, the loop exits after at most 513 iterations (so any fuel
beyond the cap yields the same result — the fuel-independence clause),
and whenever it reports an interaction the accepted sample is inside the
volume with mapped alpha at least the rejection threshold; leaving the
volume or passing the 512-iteration bound yields the "no interaction"
result (the caller then returns the environment colour), never an error
or a diverging loop. -/
theorem sample_interaction_terminates (vol : V3 → ℚ) (A : ℕ → ℕ) (L : ℕ)
    (rp rd : V3) (me dt rq : ℚ) :
    (∃ r n, sample_interaction vol A L rp rd me dt rq = some (r, n) ∧
      n ≤ 513 ∧ (∀ p s, r = some (p, s) → in_volume p = true ∧ rq ≤ s)) ∧
    (∀ fuel, 513 ≤ fuel →
      sampleInteractLoop vol A L rp rd me dt rq fuel 1 0 =
        sample_interaction vol A L rp rd me dt rq) := by
  constructor
  · exact sampleInteractLoop_exits vol A L rp rd me dt rq 514 1 0 (by omega)
      (by omega)
  · intro fuel hf
    exact sampleInteractLoop_stable vol A L rp rd me dt rq fuel 514 1 0
      (by omega) (by omega) (by omega)

/-! ## C10: the brick builder's (min, max) invariant -/

theorem ceilDiv_cell_lt (R e c : ℕ) (hR : 1 ≤ R) (he : 1 ≤ e)
    (hc : c < ceilDiv R e) :
    ceilDiv R (ceilDiv R e) * c < R ∧ 1 ≤ ceilDiv R (ceilDiv R e) := by
  have hB1 : 1 ≤ ceilDiv R e := by
    rw [ceilDiv, Nat.one_le_div_iff (by omega)]; omega
  set B := ceilDiv R e with hBdef
  have hdm₁ := Nat.div_add_mod (R + e - 1) e
  have hmlt₁ : (R + e - 1) % e < e := Nat.mod_lt _ (by omega)
  have hBe : R ≤ e * B := by rw [hBdef, ceilDiv]; omega
  have hBe' : e * B ≤ R + e - 1 := by rw [hBdef, ceilDiv]; omega
  set v := ceilDiv R B with hvdef
  have hv1 : 1 ≤ v := by
    rw [hvdef, ceilDiv, Nat.one_le_div_iff (by omega)]; omega
  have hdm₂ := Nat.div_add_mod (R + B - 1) B
  have hmlt₂ : (R + B - 1) % B < B := Nat.mod_lt _ (by omega)
  have hvB : R ≤ B * v := by rw [hvdef, ceilDiv]; omega
  have hvB' : B * v ≤ R + B - 1 := by rw [hvdef, ceilDiv]; omega
  have hve : v ≤ e := by
    by_contra hlt
    have h1 : B * (e + 1) ≤ B * v := Nat.mul_le_mul_left B (by omega)
    have h2 : B * (e + 1) = B * e + B := by ring
    have h3 : e * B = B * e := Nat.mul_comm e B
    omega
  refine ⟨?_, hv1⟩
  obtain ⟨k, hk⟩ : ∃ k, B = k + 1 := ⟨B - 1, by omega⟩
  have hck : c ≤ k := by omega
  have h4 : v * c ≤ v * k := Nat.mul_le_mul_left v hck
  have h5 : v * k ≤ e * k := Nat.mul_le_mul_right k hve
  have h6 : e * B = e * k + e := by rw [hk]; ring
  omega

theorem brickAxisRange_ne_nil (R e c : ℕ) (hR : 1 ≤ R) (he : 1 ≤ e)
    (hc : c < ceilDiv R e) : brickAxisRange R (ceilDiv R e) c ≠ [] := by
  obtain ⟨hlt, hv1⟩ := ceilDiv_cell_lt R e c hR he hc
  rw [brickAxisRange]
  intro hnil
  have := congrArg List.length hnil
  simp only [List.length_map, List.length_range, List.length_nil] at this
  omega

theorem brickFold_invariant (d : ℕ → ℕ → ℕ → ℚ)
    (hd : ∀ i j k, 0 ≤ d i j k ∧ d i j k ≤ 1) :
    ∀ (l : List (ℕ × ℕ × ℕ)) (mm : ℚ × ℚ),
      mm.1 ≤ mm.2 → 0 ≤ mm.1 → mm.2 ≤ 1 →
      (l.foldl (fun mm c =>
          (min mm.1 (d c.1 c.2.1 c.2.2), max mm.2 (d c.1 c.2.1 c.2.2))) mm).1 ≤
        (l.foldl (fun mm c =>
          (min mm.1 (d c.1 c.2.1 c.2.2), max mm.2 (d c.1 c.2.1 c.2.2))) mm).2 ∧
      0 ≤ (l.foldl (fun mm c =>
          (min mm.1 (d c.1 c.2.1 c.2.2), max mm.2 (d c.1 c.2.1 c.2.2))) mm).1 ∧
      (l.foldl (fun mm c =>
          (min mm.1 (d c.1 c.2.1 c.2.2), max mm.2 (d c.1 c.2.1 c.2.2))) mm).2 ≤ 1 := by
  intro l
  induction l with
  | nil => intro mm h1 h2 h3; exact ⟨h1, h2, h3⟩
  | cons c rest ih =>
    intro mm h1 h2 h3
    obtain ⟨hd0, hd1⟩ := hd c.1 c.2.1 c.2.2
    exact ih (min mm.1 (d c.1 c.2.1 c.2.2), max mm.2 (d c.1 c.2.1 c.2.2))
      (le_trans (min_le_right _ _) (le_max_right _ _))
      (le_min h2 hd0) (max_le h3 hd1)

theorem brickFold_head (d : ℕ → ℕ → ℕ → ℚ)
    (hd : ∀ i j k, 0 ≤ d i j k ∧ d i j k ≤ 1)
    (c : ℕ × ℕ × ℕ) (rest : List (ℕ × ℕ × ℕ)) :
    ((c :: rest).foldl (fun mm c =>
        (min mm.1 (d c.1 c.2.1 c.2.2), max mm.2 (d c.1 c.2.1 c.2.2)))
      ((1 : ℚ), (0 : ℚ))).1 ≤
      ((c :: rest).foldl (fun mm c =>
        (min mm.1 (d c.1 c.2.1 c.2.2), max mm.2 (d c.1 c.2.1 c.2.2)))
      ((1 : ℚ), (0 : ℚ))).2 ∧
    0 ≤ ((c :: rest).foldl (fun mm c =>
        (min mm.1 (d c.1 c.2.1 c.2.2), max mm.2 (d c.1 c.2.1 c.2.2)))
      ((1 : ℚ), (0 : ℚ))).1 ∧
    ((c :: rest).foldl (fun mm c =>
        (min mm.1 (d c.1 c.2.1 c.2.2), max mm.2 (d c.1 c.2.1 c.2.2)))
      ((1 : ℚ), (0 : ℚ))).2 ≤ 1 := by
  obtain ⟨hd0, hd1⟩ := hd c.1 c.2.1 c.2.2
  rw [List.foldl_cons]
  exact brickFold_invariant d hd rest _
    (le_trans (min_le_right _ _) (le_max_right _ _))
    (le_min (by norm_num) hd0) (max_le (by norm_num) hd1)

/-- Claim C10 (amended): for every volume whose densities lie in `[0,1]`
and every cell of the brick grid as the host sizes it (grid resolution
`ceil(res/e)` per axis for a brick edge length `e ≥ 1`), the `(min,max)`
pair `generateBricks` writes satisfies `min ≤ max` with both components
in `[0,1]`.  (The grid-shape hypothesis is needed: it makes every cell's
sub-block nonempty, so the `(1, 0)` fold seed is always overwritten.) -/
theorem generateBricks_minmax_invariant (d : ℕ → ℕ → ℕ → ℚ)
    (rx ry rz ex ey ez cx cy cz : ℕ)
    (hd : ∀ i j k, 0 ≤ d i j k ∧ d i j k ≤ 1)
    (hrx : 1 ≤ rx) (hry : 1 ≤ ry) (hrz : 1 ≤ rz)
    (hex : 1 ≤ ex) (hey : 1 ≤ ey) (hez : 1 ≤ ez)
    (hcx : cx < ceilDiv rx ex) (hcy : cy < ceilDiv ry ey)
    (hcz : cz < ceilDiv rz ez) :
    (generateBricks d ⟨rx, ry, rz⟩
        ⟨ceilDiv rx ex, ceilDiv ry ey, ceilDiv rz ez⟩ cx cy cz).1 ≤
      (generateBricks d ⟨rx, ry, rz⟩
        ⟨ceilDiv rx ex, ceilDiv ry ey, ceilDiv rz ez⟩ cx cy cz).2 ∧
    0 ≤ (generateBricks d ⟨rx, ry, rz⟩
        ⟨ceilDiv rx ex, ceilDiv ry ey, ceilDiv rz ez⟩ cx cy cz).1 ∧
    (generateBricks d ⟨rx, ry, rz⟩
        ⟨ceilDiv rx ex, ceilDiv ry ey, ceilDiv rz ez⟩ cx cy cz).2 ≤ 1 := by
  have hnx := brickAxisRange_ne_nil rx ex cx hrx hex hcx
  have hny := brickAxisRange_ne_nil ry ey cy hry hey hcy
  have hnz := brickAxisRange_ne_nil rz ez cz hrz hez hcz
  rw [generateBricks]
  have hcoords : brickCoords ⟨rx, ry, rz⟩
      ⟨ceilDiv rx ex, ceilDiv ry ey, ceilDiv rz ez⟩ cx cy cz ≠ [] := by
    rw [brickCoords]
    obtain ⟨k, ks, hk⟩ := List.exists_cons_of_ne_nil hnz
    obtain ⟨j, js, hj⟩ := List.exists_cons_of_ne_nil hny
    obtain ⟨i, is', hi⟩ := List.exists_cons_of_ne_nil hnx
    simp only [Int.toNat_ofNat] at hk hj hi ⊢
    rw [hk, hj, hi]
    simp [List.flatMap_cons]
  obtain ⟨c, cs, hc⟩ := List.exists_cons_of_ne_nil hcoords
  rw [hc]
  exact brickFold_head d hd c cs

/-- Witness: the invariant instantiated on a concrete constant-density
`2×2×2` volume with brick edge 1 (grid `2×2×2`), cell `(0,0,0)`. -/
theorem generateBricks_minmax_invariant_witness :
    (generateBricks (fun _ _ _ => (1 : ℚ)/2) ⟨2, 2, 2⟩
        ⟨ceilDiv 2 1, ceilDiv 2 1, ceilDiv 2 1⟩ 0 0 0).1 ≤
      (generateBricks (fun _ _ _ => (1 : ℚ)/2) ⟨2, 2, 2⟩
        ⟨ceilDiv 2 1, ceilDiv 2 1, ceilDiv 2 1⟩ 0 0 0).2 ∧
    0 ≤ (generateBricks (fun _ _ _ => (1 : ℚ)/2) ⟨2, 2, 2⟩
        ⟨ceilDiv 2 1, ceilDiv 2 1, ceilDiv 2 1⟩ 0 0 0).1 ∧
    (generateBricks (fun _ _ _ => (1 : ℚ)/2) ⟨2, 2, 2⟩
        ⟨ceilDiv 2 1, ceilDiv 2 1, ceilDiv 2 1⟩ 0 0 0).2 ≤ 1 :=
  generateBricks_minmax_invariant (fun _ _ _ => (1 : ℚ)/2) 2 2 2 1 1 1 0 0 0
    (fun _ _ _ => ⟨by norm_num, by norm_num⟩)
    (by norm_num) (by norm_num) (by norm_num)
    (by norm_num) (by norm_num) (by norm_num)
    (by norm_num [ceilDiv]) (by norm_num [ceilDiv]) (by norm_num [ceilDiv])

/-! ## C1: the front-to-back compositing invariant -/

theorem opacityOf_mem_unit {w r : ℝ} (hw0 : 0 ≤ w) (hw1 : w ≤ 1)
    (hr : 0 < r) : 0 ≤ opacityOf w r ∧ opacityOf w r ≤ 1 := by
  have hx0 : (0 : ℝ) ≤ 1 - w := by linarith
  have hx1 : 1 - w ≤ 1 := by linarith
  constructor
  · have := Real.rpow_le_one hx0 hx1 hr.le
    rw [opacityOf]; linarith
  · have := Real.rpow_nonneg hx0 r
    rw [opacityOf]; linarith

theorem alphaStep_mono_unit {a o : ℝ} (ha0 : 0 ≤ a) (ha1 : a ≤ 1)
    (ho0 : 0 ≤ o) (ho1 : o ≤ 1) :
    a ≤ alphaStep a o ∧ 0 ≤ alphaStep a o ∧ alphaStep a o ≤ 1 := by
  refine ⟨?_, ?_, ?_⟩
  · rw [alphaStep]; nlinarith
  · rw [alphaStep]; nlinarith
  · rw [alphaStep]; nlinarith

theorem alphaTrace_chain (r : ℝ) (hr : 0 < r) :
    ∀ (ws : List ℝ) (a₀ : ℝ), 0 ≤ a₀ → a₀ ≤ 1 →
      (∀ w ∈ ws, 0 ≤ w ∧ w ≤ 1) →
      List.Chain' (· ≤ ·) (alphaTrace r a₀ ws) ∧
      ∀ a ∈ alphaTrace r a₀ ws, 0 ≤ a ∧ a ≤ 1 := by
  intro ws
  induction ws with
  | nil =>
    intro a₀ h0 h1 _
    refine ⟨by simp [alphaTrace], ?_⟩
    intro a ha
    simp only [alphaTrace, List.scanl_nil, List.mem_singleton] at ha
    exact ha ▸ ⟨h0, h1⟩
  | cons w ws ih =>
    intro a₀ h0 h1 hmem
    obtain ⟨hw0, hw1⟩ := hmem w (List.mem_cons_self w ws)
    obtain ⟨ho0, ho1⟩ := opacityOf_mem_unit hw0 hw1 hr
    obtain ⟨hstep, hs0, hs1⟩ := alphaStep_mono_unit h0 h1 ho0 ho1
    obtain ⟨ihc, ihm⟩ := ih (alphaStep a₀ (opacityOf w r)) hs0 hs1
      (fun v hv => hmem v (List.mem_cons_of_mem w hv))
    have hunf : alphaTrace r a₀ (w :: ws)
        = a₀ :: alphaTrace r (alphaStep a₀ (opacityOf w r)) ws := by
      simp [alphaTrace]
    rw [hunf]
    constructor
    · rcases ws with _ | ⟨w', ws'⟩
      · simp [alphaTrace, hstep]
      · rw [show alphaTrace r (alphaStep a₀ (opacityOf w r)) (w' :: ws')
            = alphaStep a₀ (opacityOf w r) ::
                alphaTrace r (alphaStep (alphaStep a₀ (opacityOf w r))
                  (opacityOf w' r)) ws' by simp [alphaTrace]] at ihc ⊢
        exact List.Chain'.cons hstep ihc
    · intro a ha
      rcases List.mem_cons.mp ha with rfl | ha
      · exact ⟨h0, h1⟩
      · exact ihm a ha

/-- Claim C1: throughout the front-to-back compositing loop, if every
composited per-sample transfer-function alpha lies in `[0,1]` and the
sampling-rate exponent `r = 1/samplingRate` is positive, then every
per-sample opacity `1 - (1-w)^r` lies in `[0,1]`, and the accumulated
alpha (updated as `alpha += opacity*(1-alpha)`, starting from the
kernel's `alpha = 0`) is monotonically non-decreasing from step to step
and stays in `[0,1]` at every step of the trace. -/
theorem compositing_alpha_monotone_bounded (r : ℝ) (hr : 0 < r)
    (ws : List ℝ) (hw : ∀ w ∈ ws, 0 ≤ w ∧ w ≤ 1) :
    (∀ w ∈ ws, 0 ≤ opacityOf w r ∧ opacityOf w r ≤ 1) ∧
    List.Chain' (· ≤ ·) (alphaTrace r 0 ws) ∧
    (∀ a ∈ alphaTrace r 0 ws, 0 ≤ a ∧ a ≤ 1) := by
  obtain ⟨hc, hm⟩ := alphaTrace_chain r hr ws 0 le_rfl (by norm_num) hw
  exact ⟨fun w hmemw =>
    opacityOf_mem_unit (hw w hmemw).1 (hw w hmemw).2 hr, hc, hm⟩

/-- Witness: the compositing invariant at sampling rate 1
(`r = 1`) on the two-sample alpha sequence `[1/2, 3/4]`. -/
theorem compositing_alpha_monotone_bounded_witness :
    (0 : ℝ) < 1 ∧
    ((∀ w ∈ [(1 : ℝ)/2, 3/4], 0 ≤ opacityOf w 1 ∧ opacityOf w 1 ≤ 1) ∧
     List.Chain' (· ≤ ·) (alphaTrace 1 0 [(1 : ℝ)/2, 3/4]) ∧
     (∀ a ∈ alphaTrace 1 0 [(1 : ℝ)/2, 3/4], 0 ≤ a ∧ a ≤ 1)) :=
  ⟨one_pos, compositing_alpha_monotone_bounded 1 one_pos [(1 : ℝ)/2, 3/4]
    (by intro w hw; rcases List.mem_cons.mp hw with rfl | hw
        · norm_num
        · rcases List.mem_cons.mp hw with rfl | hw
          · norm_num
          · simp at hw)⟩

/-! ## C2: the alpha prefix-sum array -/

theorem runSumU32_eq_runSumNat :
    ∀ (l : List ℕ) (acc : ℕ), acc + l.sum < u32Mod →
      runSumU32 l acc = runSumNat l acc := by
  intro l
  induction l with
  | nil => intro acc _; rfl
  | cons a rest ih =>
    intro acc hb
    rw [runSumU32, runSumNat]
    have hs : (acc + a) % u32Mod = acc + a :=
      Nat.mod_eq_of_lt (by simp [List.sum_cons] at hb; omega)
    rw [hs, ih (acc + a) (by simp [List.sum_cons] at hb; omega)]

theorem runSumNat_chain_last :
    ∀ (l : List ℕ) (acc : ℕ),
      List.Chain' (· ≤ ·) (runSumNat l acc) ∧
      (l ≠ [] → (runSumNat l acc).getLast? = some (acc + l.sum)) := by
  intro l
  induction l with
  | nil => intro acc; exact ⟨List.chain'_nil, fun h => absurd rfl h⟩
  | cons a rest ih =>
    intro acc
    obtain ⟨ihc, ihl⟩ := ih (acc + a)
    constructor
    · show List.Chain' (· ≤ ·) ((acc + a) :: runSumNat rest (acc + a))
      cases rest with
      | nil => simp [runSumNat]
      | cons b rest' =>
        exact List.Chain'.cons (Nat.le_add_right _ _) ihc
    · intro _
      show ((acc + a) :: runSumNat rest (acc + a)).getLast?
          = some (acc + (a :: rest).sum)
      cases rest with
      | nil => simp [runSumNat]
      | cons b rest' =>
        rw [show runSumNat (b :: rest') (acc + a)
              = (acc + a + b) :: runSumNat rest' (acc + a + b) from rfl,
            List.getLast?_cons_cons,
            show (acc + a + b) :: runSumNat rest' (acc + a + b)
              = runSumNat (b :: rest') (acc + a) from rfl,
            ihl (by simp)]
        congr 1
        simp [List.sum_cons]
        ring

/-- Claim C2 (amended): for every RGBA transfer-function table whose
total alpha mass fits in a 32-bit `unsigned int` (every table the
application builds — 1024 byte-valued entries — is far below the bound)
and which has at least one entry, the derived alpha prefix-sum array is
non-decreasing and its last entry equals the sum of all alpha entries of
the table. -/
theorem tffPrefixSum_monotone_last_eq_sum (tff : List ℕ)
    (hov : (alphaEntries tff).sum < u32Mod) (hne : alphaEntries tff ≠ []) :
    List.Chain' (· ≤ ·) (tffPrefixOf tff) ∧
    (tffPrefixOf tff).getLast? = some ((alphaEntries tff).sum) := by
  rw [tffPrefixOf, runSumU32_eq_runSumNat (alphaEntries tff) 0 (by omega)]
  obtain ⟨hc, hl⟩ := runSumNat_chain_last (alphaEntries tff) 0
  exact ⟨hc, by rw [hl hne]; congr 1; omega⟩

/-- Witness: the amended C2 theorem on the two-entry RGBA table
`[(0,0,0,10), (0,0,0,20)]`: prefix sums `[10, 30]`. -/
theorem tffPrefixSum_monotone_last_eq_sum_witness :
    List.Chain' (· ≤ ·) (tffPrefixOf [0, 0, 0, 10, 0, 0, 0, 20]) ∧
    (tffPrefixOf [0, 0, 0, 10, 0, 0, 0, 20]).getLast?
      = some ((alphaEntries [0, 0, 0, 10, 0, 0, 0, 20]).sum) :=
  tffPrefixSum_monotone_last_eq_sum [0, 0, 0, 10, 0, 0, 0, 20]
    (by decide) (by decide)

theorem runSumU32_replicate (c : ℕ) :
    ∀ (n acc : ℕ), runSumU32 (List.replicate n c) acc
      = (List.range n).map (fun i => (acc + (i + 1) * c) % u32Mod) := by
  intro n
  induction n with
  | zero => intro acc; rfl
  | succ n ih =>
    intro acc
    rw [List.replicate_succ, runSumU32, List.range_succ_eq_map]
    simp only [List.map_cons, List.map_map, List.cons.injEq]
    refine ⟨by norm_num, ?_⟩
    rw [ih ((acc + c) % u32Mod)]
    apply List.map_congr_left
    intro i _
    simp only [Function.comp_apply]
    rw [Nat.mod_add_mod]
    congr 1
    simp only [Nat.succ_eq_add_one]
    ring

theorem alphaEntries_replicate (c : ℕ) :
    ∀ n, alphaEntries (List.replicate (4 * n) c) = List.replicate n c := by
  intro n
  induction n with
  | zero => rfl
  | succ n ih =>
    rw [show 4 * (n + 1) = (4 * n) + 1 + 1 + 1 + 1 by ring]
    rw [List.replicate_succ, List.replicate_succ, List.replicate_succ,
      List.replicate_succ, alphaEntries, ih, List.replicate_succ]

/-- Counterexample to claim C2 as stated: the prefix sums are
`unsigned int` partial sums, so for a table whose alpha mass exceeds
`2^32 - 1` — here `4*16843010` bytes, all alphas `255` — the derived
array wraps around: entry 16843008 is `4294967295` but entry 16843009 is
`254`, so the array is not non-decreasing (and its last entry is not the
untruncated alpha sum). -/
theorem tffPrefixSum_overflow_cex :
    ¬ (List.Chain' (· ≤ ·) (tffPrefixOf (List.replicate (4 * 16843010) 255)) ∧
       (tffPrefixOf (List.replicate (4 * 16843010) 255)).getLast?
         = some ((alphaEntries (List.replicate (4 * 16843010) 255)).sum)) := by
  have hform : tffPrefixOf (List.replicate (4 * 16843010) 255)
      = (List.range 16843010).map (fun i => (0 + (i + 1) * 255) % u32Mod) := by
    rw [tffPrefixOf, alphaEntries_replicate, runSumU32_replicate]
  intro hcl
  have hchain := hcl.1
  rw [hform, List.chain'_map,
    show (16843010 : ℕ) = Nat.succ 16843009 from rfl,
    List.chain'_range_succ] at hchain
  have hinst := hchain 16843008 (by omega)
  have e1 : (0 + (16843008 + 1) * 255) % u32Mod = 4294967295 := by
    norm_num [u32Mod]
  have e2 : (0 + (Nat.succ 16843008 + 1) * 255) % u32Mod = 254 := by
    norm_num [u32Mod]
  rw [e1, e2] at hinst
  omega

/-! ## C3: the brick-skip test -/

theorem listRangeSum_mono (A : ℕ → ℕ) :
    ∀ j k, j ≤ k →
      ((List.range (j + 1)).map A).sum ≤ ((List.range (k + 1)).map A).sum := by
  intro j k
  induction k with
  | zero =>
    intro h
    have hj : j = 0 := by omega
    subst hj
    exact le_rfl
  | succ k ih =>
    intro h
    rcases Nat.lt_or_ge j (k + 1) with hlt | hge
    · have hkk := ih (by omega)
      nth_rewrite 2 [List.range_succ]
      rw [List.map_append, List.sum_append]
      simp only [List.map_cons, List.map_nil, List.sum_cons, List.sum_nil]
      omega
    · have hj : j = k + 1 := by omega
      subst hj
      exact le_rfl

theorem listRangeSum_eq_iff (A : ℕ → ℕ) (j : ℕ) :
    ∀ k, j ≤ k →
      (((List.range (k + 1)).map A).sum = ((List.range (j + 1)).map A).sum ↔
        ∀ i, j < i → i ≤ k → A i = 0) := by
  intro k
  induction k with
  | zero =>
    intro h
    have : j = 0 := by omega
    subst this
    constructor
    · intro _ i h1 h2; omega
    · intro _; rfl
  | succ k ih =>
    intro h
    rcases Nat.lt_or_ge j (k + 1) with hlt | hge
    · have hmono := listRangeSum_mono A j k (by omega)
      rw [List.range_succ, List.map_append, List.sum_append]
      simp only [List.map_cons, List.map_nil, List.sum_cons, List.sum_nil]
      rw [show ∀ a b : ℕ, a + (b + 0) = a + b from fun a b => by omega]
      constructor
      · intro heq
        have hAk : A (k + 1) = 0 := by omega
        have hks : ((List.range (k + 1)).map A).sum
            = ((List.range (j + 1)).map A).sum := by omega
        intro i h1 h2
        rcases Nat.lt_or_ge i (k + 1) with hi | hi
        · exact ((ih (by omega)).mp hks) i h1 (by omega)
        · have : i = k + 1 := by omega
          exact this ▸ hAk
      · intro hz
        have hks : ((List.range (k + 1)).map A).sum
            = ((List.range (j + 1)).map A).sum :=
          (ih (by omega)).mpr (fun i h1 h2 => hz i h1 (by omega))
        have hAk : A (k + 1) = 0 := hz (k + 1) (by omega) le_rfl
        omega
    · have : j = k + 1 := by omega
      subst this
      constructor
      · intro _ i h1 h2; omega
      · intro _; rfl

theorem tex1DLinear_center (A : ℕ → ℕ) (L k : ℕ) (hL : 0 < L) (hk : k < L) :
    tex1DLinear A L (((k : ℚ) + 1/2) / L) = (A k : ℚ) / 255 := by
  have hLq : (L : ℚ) ≠ 0 := by positivity
  rw [tex1DLinear]
  have hc : ((k : ℚ) + 1/2) / L * L - 1/2 = (k : ℚ) := by field_simp; ring
  rw [hc]
  have hfl : ⌊(k : ℚ)⌋ = (k : ℤ) := Int.floor_natCast k
  rw [hfl]
  have hidx : edgeIdx L (k : ℤ) = k := by
    rw [edgeIdx, clampI]
    have : ((k : ℤ)) ≤ (L : ℤ) - 1 := by omega
    omega
  rw [hidx]
  push_cast
  ring

theorem tex1DNearest_center (P : ℕ → ℕ) (L k : ℕ) (hL : 0 < L) (hk : k < L) :
    tex1DNearest P L (((k : ℚ) + 1/2) / L) = P k := by
  have hLq : (L : ℚ) ≠ 0 := by positivity
  rw [tex1DNearest]
  have hc : ((k : ℚ) + 1/2) / L * L = (k : ℚ) + 1/2 := by field_simp; ring
  rw [hc]
  have hfl : ⌊(k : ℚ) + 1/2⌋ = (k : ℤ) := by
    rw [Int.floor_eq_iff]
    constructor
    · push_cast; linarith
    · push_cast; linarith
  rw [hfl]
  congr 1
  rw [edgeIdx, clampI]
  have : ((k : ℤ)) ≤ (L : ℤ) - 1 := by omega
  omega

theorem byteFrac_lt_micro_iff (a : ℕ) : ((a : ℚ) / 255 < 1/1000000) ↔ a = 0 := by
  constructor
  · intro h
    by_contra hne
    have h1 : (1 : ℚ) ≤ (a : ℚ) := by
      have : 1 ≤ a := by omega
      exact_mod_cast this
    have : (1 : ℚ) / 255 ≤ (a : ℚ) / 255 := by linarith
    linarith
  · intro h; subst h; norm_num

/-- Claim C3 (amended): in the object-order ESS traversal, a brick with
texel-centred density range `(dmin, dmax) = ((j+1/2)/L, (k+1/2)/L)` is
skipped iff the transfer function's alpha byte at the maximum density is
zero AND every alpha byte strictly between the min and max buckets is
zero (the prefix-sum equality).  Prefix equality alone is not the skip
condition: the kernel additionally requires the alpha looked up at the
maximum density to be below `1e-6`, which is what excludes uniform
bricks whose single density is opaque. -/
theorem essSkip_characterization (A P : ℕ → ℕ) (L j k : ℕ)
    (hL : 0 < L) (hjk : j ≤ k) (hk : k < L)
    (hP : ∀ i, i < L → P i = ((List.range (i + 1)).map A).sum) :
    essSkipTest A L P L (((j : ℚ) + 1/2) / L) (((k : ℚ) + 1/2) / L) = true ↔
      (A k = 0 ∧ ∀ i, j < i → i ≤ k → A i = 0) := by
  rw [essSkipTest, Bool.and_eq_true, decide_eq_true_eq, beq_iff_eq,
    tex1DLinear_center A L k hL hk,
    tex1DNearest_center P L j hL (by omega),
    tex1DNearest_center P L k hL hk,
    byteFrac_lt_micro_iff, hP j (by omega), hP k hk]
  constructor
  · rintro ⟨hA, hpfx⟩
    exact ⟨hA, (listRangeSum_eq_iff A j k hjk).mp hpfx.symm⟩
  · rintro ⟨hA, hz⟩
    exact ⟨hA, ((listRangeSum_eq_iff A j k hjk).mpr hz).symm⟩

/-- Witness: the characterization on a 4-entry table with alpha spike at
bucket 2, brick range buckets `(0, 1)`. -/
theorem essSkip_characterization_witness :
    essSkipTest (fun i => if i = 2 then 5 else 0) 4
        (fun i => ((List.range (i + 1)).map (fun i => if i = 2 then 5 else 0)).sum)
        4 ((((0 : ℕ) : ℚ) + 1/2) / 4) ((((1 : ℕ) : ℚ) + 1/2) / 4) = true ↔
      ((fun i => if i = 2 then 5 else 0) 1 = 0 ∧
        ∀ i, 0 < i → i ≤ 1 → (fun i => if i = 2 then 5 else 0) i = 0) :=
  essSkip_characterization (fun i => if i = 2 then 5 else 0)
    (fun i => ((List.range (i + 1)).map (fun i => if i = 2 then 5 else 0)).sum)
    4 0 1 (by omega) (by omega) (by omega) (fun i _ => rfl)

/-- Counterexample to claim C3 as stated: the skip decision is not
equivalent to prefix-sum equality alone.  A uniform brick whose single
density `0.4` (table bucket 409) carries alpha byte 255 has equal prefix
lookups at its min and max densities, yet the kernel does not skip it —
the `alphaMax < 1e-6` guard fails. -/
theorem essSkip_not_iff_prefixEq_cex :
    ¬ (essSkipTest cexTffA 1024 cexPfx 1024 (2/5) (2/5) = true ↔
        specSkipPred cexPfx 1024 (2/5) (2/5) = true) :=
  of_decide_eq_true (by with_unfolding_all rfl)

/-! ## C9: a fully transparent transfer function yields the background -/

theorem tex1DLinear_zero (A : ℕ → ℕ) (hA : ∀ i, A i = 0) (L : ℕ) (u : ℚ) :
    tex1DLinear A L u = 0 := by
  rw [tex1DLinear]
  simp [hA]

theorem rcTfColor_w_zero (c : RCfg) (hA : ∀ i, c.tffA i = 0)
    (hch : c.chan ≠ VChan.rgba) (prev : Quad) (hprev : prev.w = 0)
    (pos : V3) : (rcTfColor c prev pos).w = 0 := by
  have hz : ∀ u, (c.tff u).w = 0 := fun u => by
    simp [RCfg.tff, tffSample, tex1DLinear_zero c.tffA hA]
  rw [rcTfColor]
  by_cases h4 : c.illumType = 4
  · simp [h4, hz]
  · rw [if_neg h4]
    cases hc : c.chan with
    | r =>
      simp only []
      generalize (if c.useLinear = true then (c.volLin pos).x
        else (c.volNear pos).x) = d
      have hq := hz d
      generalize hg : c.tff d = q0 at hq ⊢
      have hP1 : ¬ ((1 : ℚ)/10 < q0.w ∧ ¬ c.illumType = 0) := by
        rintro ⟨hlt, _⟩
        rw [hq] at hlt
        norm_num at hlt
      rw [if_neg hP1]
      have hP2 : ¬ ((1 : ℚ)/10 < q0.w ∧ c.contours = true) := by
        rintro ⟨hlt, _⟩
        rw [hq] at hlt
        norm_num at hlt
      rw [if_neg hP2]
      exact hq
    | rgba => exact absurd hc hch
    | rg => simp [hz]
    | argb => exact hprev
    | bgra => exact hprev
    | invalid => exact hprev

theorem rcBody_bg (c : RCfg) (hA : ∀ i, c.tffA i = 0)
    (hpow : ∀ r, c.powr 1 r = 1) (hch : c.chan ≠ VChan.rgba)
    (s : RState) (halpha : s.alpha = 0) (htfc : s.tfc.w = 0) :
    (rcBody c s).t = s.t ∧ (rcBody c s).res = s.res ∧
    (rcBody c s).alpha = 0 ∧ (rcBody c s).tfc.w = 0 := by
  have hw := rcTfColor_w_zero c hA hch s.tfc htfc (rcPos c s.t)
  have hw3 : (rcBody c s).tfc.w = 0 := by
    rcases haer : c.aerial with _ | _ <;> simp [rcBody, haer, hw]
  have hop : 1 - c.powr (1 - (rcBody c s).tfc.w) c.refSI = 0 := by
    rw [hw3, show (1 : ℚ) - 0 = 1 by norm_num, hpow c.refSI]
    ring
  refine ⟨rfl, ?_, ?_, hw3⟩
  · have heq : (rcBody c s).res
        = V3.sub s.res (V3.smul
            ((1 - c.powr (1 - (rcBody c s).tfc.w) c.refSI) * (1 - s.alpha))
            ⟨(rcBody c s).tfc.x, (rcBody c s).tfc.y, (rcBody c s).tfc.z⟩) :=
      rfl
    rw [heq, hop]
    rcases hsr : s.res with ⟨rx, ry, rz⟩
    simp [V3.sub, V3.smul]
  · have heq : (rcBody c s).alpha
        = s.alpha + (1 - c.powr (1 - (rcBody c s).tfc.w) c.refSI)
            * (1 - s.alpha) := rfl
    rw [heq, hop, halpha]
    ring

theorem rcInner_bg (c : RCfg) (hA : ∀ i, c.tffA i = 0)
    (hpow : ∀ r, c.powr 1 r = 1) (hch : c.chan ≠ VChan.rgba) :
    ∀ (fuel : ℕ) (tExit : ℚ) (s : RState), s.alpha = 0 → s.tfc.w = 0 →
      (rcInner c tExit fuel s).res = s.res ∧
      (rcInner c tExit fuel s).alpha = 0 ∧
      (rcInner c tExit fuel s).tfc.w = 0 := by
  intro fuel
  induction fuel with
  | zero => intro tExit s h1 h2; exact ⟨rfl, h1, h2⟩
  | succ fuel ih =>
    intro tExit s h1 h2
    obtain ⟨ht', hres', halpha', htfc'⟩ := rcBody_bg c hA hpow hch s h1 h2
    rw [rcInner]
    by_cases hcond : s.t < tExit
    · rw [if_pos hcond]
      by_cases hfar : c.tfar ≤ (rcBody c s).t
      · rw [if_pos hfar]
        exact ⟨hres', halpha', htfc'⟩
      · rw [if_neg hfar, if_neg (by rw [halpha']; norm_num)]
        obtain ⟨ha, hb, hc'⟩ := ih tExit
          { rcBody c s with t := (rcBody c s).t + c.stepSize }
          halpha' htfc'
        exact ⟨by rw [ha]; exact hres', hb, hc'⟩
    · rw [if_neg hcond]
      exact ⟨rfl, h1, h2⟩

theorem rcOuter_bg (c : RCfg) (hA : ∀ i, c.tffA i = 0)
    (hpow : ∀ r, c.powr 1 r = 1) (hch : c.chan ≠ VChan.rgba)
    (innerFuel : ℕ) :
    ∀ (fuel : ℕ) (es : EState), es.rs.alpha = 0 → es.rs.tfc.w = 0 →
      (rcOuter c innerFuel fuel es).rs.res = es.rs.res ∧
      (rcOuter c innerFuel fuel es).rs.alpha = 0 ∧
      (rcOuter c innerFuel fuel es).rs.tfc.w = 0 := by
  intro fuel
  induction fuel with
  | zero => intro es h1 h2; exact ⟨rfl, h1, h2⟩
  | succ fuel ih =>
    intro es h1 h2
    rw [rcOuter]
    by_cases hcond : es.rs.t < c.tfar
    · rw [if_pos hcond]
      simp only []
      by_cases hskip : essSkipTest c.tffA c.tffLen c.pfxT c.pfxLen
          (c.brickAt es.cell).1 (c.brickAt es.cell).2 = true
      · rw [if_pos hskip]
        exact ih _ h1 h2
      · rw [if_neg hskip]
        obtain ⟨ha, hb, hc'⟩ :=
          rcInner_bg c hA hpow hch innerFuel (rcDDAStep c es).2.2 es.rs h1 h2
        by_cases hterm : c.tfar ≤ (rcInner c (rcDDAStep c es).2.2
              innerFuel es.rs).t ∨
            (49 : ℚ)/50 < (rcInner c (rcDDAStep c es).2.2 innerFuel es.rs).alpha
        · rw [if_pos hterm]
          exact ⟨ha, hb, hc'⟩
        · rw [if_neg hterm]
          by_cases hexit : (rcDDAStep c es).1.x = c.exitCell.x ∨
              (rcDDAStep c es).1.y = c.exitCell.y ∨
              (rcDDAStep c es).1.z = c.exitCell.z
          · rw [if_pos hexit]
            exact ⟨ha, hb, hc'⟩
          · rw [if_neg hexit]
            obtain ⟨ia, ib, ic⟩ := ih
              ⟨{ rcInner c (rcDDAStep c es).2.2 innerFuel es.rs with
                  t := (rcDDAStep c es).2.2 },
                (rcDDAStep c es).1, (rcDDAStep c es).2.1⟩ hb hc'
            exact ⟨by rw [ia]; exact ha, ib, ic⟩
    · rw [if_neg hcond]
      exact ⟨rfl, h1, h2⟩

/-- Claim C9 (amended): if every alpha entry of the transfer-function
table is zero, then for every pixel ray, every single-channel (`CLK_R`)
or two-channel (`CLK_RG`) volume content, every fuel, and both kernel
compilations, the compositor writes the background colour (RGB) with
zero accumulated alpha.  (For four-channel `CLK_RGBA` volumes the claim
fails — the kernel takes colour and opacity from the voxels directly,
bypassing the transfer function; see the counterexample.)  The
`native_powr` oracle only needs `powr 1 r = 1`, the mathematical
identity `1^r = 1`. -/
theorem transparent_tff_background (c : RCfg) (hA : ∀ i, c.tffA i = 0)
    (hpow : ∀ r, c.powr 1 r = 1) (hch : c.chan ≠ VChan.rgba)
    (hshow : c.showEss = false) :
    (∀ fuel, volumeRenderNoESS c fuel
      = ⟨c.background.x, c.background.y, c.background.z, 0⟩) ∧
    (∀ outerFuel innerFuel, volumeRenderESS c outerFuel innerFuel
      = ⟨c.background.x, c.background.y, c.background.z, 0⟩) := by
  constructor
  · intro fuel
    obtain ⟨ha, hb, _⟩ :=
      rcInner_bg c hA hpow hch fuel c.tfar (rcInit c) rfl rfl
    rw [volumeRenderNoESS, rcFinal, hshow]
    simp only [Bool.false_and, if_false, ite_false, Bool.false_eq_true]
    rw [ha, hb]
    rfl
  · intro outerFuel innerFuel
    obtain ⟨ha, hb, _⟩ :=
      rcOuter_bg c hA hpow hch innerFuel outerFuel (essInit c) rfl rfl
    rw [volumeRenderESS, rcFinal, hshow]
    simp only [Bool.false_and, if_false, ite_false, Bool.false_eq_true]
    rw [ha, hb]
    rfl

/-- Witness: the background-preservation theorem applied to the concrete
all-transparent scene, both compilations. -/
theorem transparent_tff_background_witness :
    volumeRenderNoESS zeroTffScene 10
      = ⟨zeroTffScene.background.x, zeroTffScene.background.y,
         zeroTffScene.background.z, 0⟩ ∧
    volumeRenderESS zeroTffScene 10 10
      = ⟨zeroTffScene.background.x, zeroTffScene.background.y,
         zeroTffScene.background.z, 0⟩ :=
  ⟨(transparent_tff_background zeroTffScene (fun _ => rfl) (fun _ => rfl)
      (by decide) rfl).1 10,
   (transparent_tff_background zeroTffScene (fun _ => rfl) (fun _ => rfl)
      (by decide) rfl).2 10 10⟩

/-- Counterexample to claim C9 as stated: a four-channel (`CL_RGBA`)
volume whose voxels are the opaque colour `(1,0,0,1)` renders the pixel
`(1,0,0,1)` even though every alpha entry of the transfer-function table
is zero and the background is `(0,0,0,0)` — the `CLK_RGBA` branch of the
kernel takes `tfColor` from the volume without consulting the transfer
function, so "background for every volume content" is false. -/
theorem transparent_tff_rgba_cex :
    (∀ i, rgbaOpaqueScene.tffA i = 0) ∧
    rgbaOpaqueScene.background = ⟨0, 0, 0, 0⟩ ∧
    volumeRenderNoESS rgbaOpaqueScene 10 = ⟨1, 0, 0, 1⟩ ∧
    ¬ volumeRenderNoESS rgbaOpaqueScene 10
        = ⟨rgbaOpaqueScene.background.x, rgbaOpaqueScene.background.y,
           rgbaOpaqueScene.background.z, rgbaOpaqueScene.background.w⟩ :=
  ⟨fun _ => rfl, rfl,
   of_decide_eq_true (by with_unfolding_all rfl),
   of_decide_eq_true (by with_unfolding_all rfl)⟩

/-! ## C5: volume-load error handling -/

/-- Counterexample to claim C5: (a) a 12-byte buffer for a `2×2×2` UCHAR
volume (8 bytes required) does NOT fail — only undersized buffers are
rejected, so "fails whenever the size does not match" is false; and (b)
when an undersized buffer does fail, the previous state is NOT retained:
the previously uploaded volume images are gone (`_volumesMem` was
cleared before the check), the reader's data is cleared
(`_dr.clearData()`), and the loaded flag is left `false`. -/
theorem loadVolume_error_handling_cex :
    (loadVolumeData (some (cexProps, [List.replicate 12 0])) exHostState).2
        = Sum.inl 1 ∧
    exHostState.volumesMem = [[7]] ∧ exHostState.volLoaded = true ∧
    (loadVolumeData (some (cexProps, [List.replicate 4 0]))
        exHostState).1.volumesMem = [] ∧
    (loadVolumeData (some (cexProps, [List.replicate 4 0]))
        exHostState).1.volLoaded = false ∧
    (loadVolumeData (some (cexProps, [List.replicate 4 0]))
        exHostState).1.drHasData = false ∧
    (∃ e, (loadVolumeData (some (cexProps, [List.replicate 4 0]))
        exHostState).2 = Sum.inr e) := by
  refine ⟨by decide, by decide, by decide, by decide, by decide, by decide,
    ⟨"Volume size does not match size specified in dat file.", by decide⟩⟩

/-- Claim C5 (amended): `loadVolumeData` fails with the data-mismatch
error exactly when the supplied buffer is SMALLER than
`resolution × format` bytes (oversized buffers are accepted), and on
such an error the operation aborts WITHOUT retaining the previous state:
the device volume buffers are already cleared, the reader's data is
cleared, and the loaded-volume flag ends up `false`.  On success the
buffer is uploaded and the loaded flag set. -/
theorem loadVolume_mismatch_behavior (st : HostState) (props : VProps)
    (v : List ℕ) (hch : props.chan ≠ VChan.invalid)
    (hf : props.format ≠ VFormat.unknown) :
    ((∃ e, (loadVolumeData (some (props, [v])) st).2 = Sum.inr e) ↔
      requiredBytes props > v.length) ∧
    (requiredBytes props > v.length →
      (loadVolumeData (some (props, [v])) st).1.volumesMem = [] ∧
      (loadVolumeData (some (props, [v])) st).1.volLoaded = false ∧
      (loadVolumeData (some (props, [v])) st).1.drHasData = false ∧
      (loadVolumeData (some (props, [v])) st).1.drData = []) ∧
    (¬ requiredBytes props > v.length →
      (loadVolumeData (some (props, [v])) st).2 = Sum.inl 1 ∧
      (loadVolumeData (some (props, [v])) st).1.volumesMem = [v] ∧
      (loadVolumeData (some (props, [v])) st).1.volLoaded = true) := by
  by_cases hsz : requiredBytes props > v.length
  · simp [loadVolumeData, volDataToCLmem, uploadLoop, hch, hf, hsz]
  · simp [loadVolumeData, volDataToCLmem, uploadLoop, hch, hf, hsz]

/-- Witness: the amended C5 theorem on a correctly-sized 8-byte buffer
for a `2×2×2` UCHAR volume. -/
theorem loadVolume_mismatch_behavior_witness :
    ((∃ e, (loadVolumeData (some (cexProps, [List.replicate 8 0]))
        exHostState).2 = Sum.inr e) ↔
      requiredBytes cexProps > (List.replicate 8 0).length) ∧
    (requiredBytes cexProps > (List.replicate 8 0).length →
      (loadVolumeData (some (cexProps, [List.replicate 8 0]))
          exHostState).1.volumesMem = [] ∧
      (loadVolumeData (some (cexProps, [List.replicate 8 0]))
          exHostState).1.volLoaded = false ∧
      (loadVolumeData (some (cexProps, [List.replicate 8 0]))
          exHostState).1.drHasData = false ∧
      (loadVolumeData (some (cexProps, [List.replicate 8 0]))
          exHostState).1.drData = []) ∧
    (¬ requiredBytes cexProps > (List.replicate 8 0).length →
      (loadVolumeData (some (cexProps, [List.replicate 8 0]))
          exHostState).2 = Sum.inl 1 ∧
      (loadVolumeData (some (cexProps, [List.replicate 8 0]))
          exHostState).1.volumesMem = [List.replicate 8 0] ∧
      (loadVolumeData (some (cexProps, [List.replicate 8 0]))
          exHostState).1.volLoaded = true) :=
  loadVolume_mismatch_behavior exHostState cexProps (List.replicate 8 0)
    (by decide) (by decide)

/-! ## C4: object-order ESS changes the rendered image

Scene-validity lemmas for `essCounterScene`, certifying the two
square-root inputs and tying the prefix texture and the brick grid to
what the host actually computes for this scene. -/

/-- `length(sampleDist*rayDir*volRes)` for the scene's axis-aligned ray:
`|(0,0,-280)| = 280`, the `lenVRD` the scene uses. -/
theorem essScene_lenVRD_exact :
    Real.sqrt ((2*0)^2 + (2*0)^2 + (2*(-1)*140)^2) = 280 := by
  rw [show ((2*0 : ℝ)^2 + (2*0)^2 + (2*(-1)*140)^2) = 280^2 by norm_num,
    Real.sqrt_sq (by norm_num)]

/-- `length(brickLen)*2` for the scene's `1×1×70` brick grid:
`2*sqrt(1 + 1 + 1/4900) = 99/35`, the `brickDiaQ` the scene uses. -/
theorem essScene_brickDia_exact :
    2 * Real.sqrt (1^2 + 1^2 + (1/70)^2) = 99/35 := by
  rw [show ((1 : ℝ)^2 + 1^2 + (1/70)^2) = (99/70)^2 by norm_num,
    Real.sqrt_sq (by norm_num)]
  norm_num

/-- The host's brick sizing for the scene's `1×1×140` volume:
brick edge `max(1, RoundPow2(140/64)) = 2` on the z axis (1 on x, y),
so the brick image is `ceil(140/2) = 70` cells deep — the scene's
`bricksRes`. -/
theorem essScene_host_brick_shape :
    max 1 (RoundPow2 (140 / 64)) = 2 ∧ ceilDiv 140 2 = 70 ∧
    max 1 (RoundPow2 (1 / 64)) = 1 ∧ ceilDiv 1 1 = 1 := by
  refine ⟨by decide, by decide, by decide, by decide⟩

set_option maxRecDepth 100000 in
/-- The scene's prefix texture is exactly the prefix-sum vector
`setTransferFunction` derives from the scene's raw RGBA table. -/
theorem essScene_pfx_is_tffPrefixOf :
    tffPrefixOf cexTffTable = (List.range 1024).map cexPfx := by
  decide

set_option maxRecDepth 100000 in
/-- Claim C4 is violated by the code: on the concrete static scene
`essCounterScene` (fixed volume, host-shaped brick grid, transfer
function with all alpha mass at the brick-minimum density `0.4`, fixed
camera, default toggles, fixed seed) the kernel compiled with
object-order ESS returns the background pixel `(0,0,0,0)` while the
kernel compiled without ESS composites the visible sample and returns
`(0.891, 0, 0, 0.99)`.  The skip test reads the prefix sums at the
brick's min and max densities; alpha mass sitting exactly at the
minimum-density bucket cancels in that difference, and the extra
`alphaMax < 1e-6` guard only checks the maximum density, so the brick is
skipped even though it renders opaque content. -/
theorem ess_changes_rendered_image :
    volumeRenderNoESS essCounterScene 300
        = ⟨891/1000, 0, 0, 99/100⟩ ∧
    volumeRenderESS essCounterScene 100 300 = ⟨0, 0, 0, 0⟩ ∧
    volumeRenderNoESS essCounterScene 300
      ≠ volumeRenderESS essCounterScene 100 300 := by
  have h1 : volumeRenderNoESS essCounterScene 300
      = ⟨891/1000, 0, 0, 99/100⟩ :=
    of_decide_eq_true (by with_unfolding_all rfl)
  have h2 : volumeRenderESS essCounterScene 100 300 = ⟨0, 0, 0, 0⟩ :=
    of_decide_eq_true (by with_unfolding_all rfl)
  refine ⟨h1, h2, ?_⟩
  rw [h1, h2]
  intro hcontra
  have := congrArg Quad.w hcontra
  norm_num at this

end VolRC
